import Mathlib

/-!
Verification of the iodine network object model (`src/rkviewer/iodine.py`).

The module-level Python state (`stackFlag`, `errCode`, `networkDict`,
`netSetStack`, `redoStack`, `lastNetIndex`) is embedded as an explicit
`GState` record, and every mutating API function becomes a pure function
`args → GState → Except Err α × GState`: the state component is returned
even when the call raises, because several source functions mutate the
globals before raising.

Python dicts with integer keys are embedded as association lists
(`List (ℤ × α)`); `aupsert` is dict assignment `d[k] = v` (update in
place if the key is present, append otherwise), `aerase` is `del d[k]`,
`alookup` is `d[k]`.  Python sets of ints are `Finset ℤ`.  The
`defaultdict(set)` fields `srcMap`/`destMap` are association lists read
through `mapGetD`, which yields `∅` for an absent key, matching the
defaultdict's observable mapping (the source's read-creates-empty-entry
side effect has no observable pointwise consequence).  Python floats are
embedded as `ℚ`: the operations under verification only store, copy and
order-compare these values, so no rounding behaviour is involved.
-/

namespace Iodine

/-- Lookup in an association list: Python `d[k]` / `k in d`. -/
def alookup (m : List (ℤ × α)) (k : ℤ) : Option α :=
  match m with
  | [] => none
  | (k', v) :: rest => if k' = k then some v else alookup rest k

/-- Key membership test: Python `k in d`. -/
def acontains (m : List (ℤ × α)) (k : ℤ) : Bool :=
  (alookup m k).isSome

/-- Dict assignment `d[k] = v`: replace the entry if the key is present,
append a new entry otherwise. -/
def aupsert (m : List (ℤ × α)) (k : ℤ) (v : α) : List (ℤ × α) :=
  match m with
  | [] => [(k, v)]
  | (k', v') :: rest => if k' = k then (k, v) :: rest else (k', v') :: aupsert rest k v

/-- Dict deletion `del d[k]`. -/
def aerase (m : List (ℤ × α)) (k : ℤ) : List (ℤ × α) :=
  match m with
  | [] => []
  | (k', v) :: rest => if k' = k then aerase rest k else (k', v) :: aerase rest k

/-- The values view of a dict: Python `d.values()`. -/
def avalues (m : List (ℤ × α)) : List α :=
  m.map Prod.snd

/-- Python `max(d.keys(), default=-1)`. -/
def maxKeyD (m : List (ℤ × α)) : ℤ :=
  match m.map Prod.fst with
  | [] => -1
  | k :: ks => ks.foldl max k

/-- Read of a `defaultdict(set)` entry, observable value only. -/
def mapGetD (m : List (ℤ × Finset ℤ)) (k : ℤ) : Finset ℤ :=
  (alookup m k).getD ∅

/-- The keys of an association list are pairwise distinct.  Every state
reachable through the API satisfies this for all of its dicts, since
Python dicts cannot hold a key twice. -/
def keysNodup (m : List (ℤ × α)) : Prop :=
  (m.map Prod.fst).Nodup

instance (m : List (ℤ × α)) : Decidable (keysNodup m) := by
  unfold keysNodup; infer_instance

theorem alookup_aupsert (m : List (ℤ × α)) (k k' : ℤ) (v : α) :
    alookup (aupsert m k v) k' = if k = k' then some v else alookup m k' := by
  induction m with
  | nil => simp [aupsert, alookup]
  | cons p rest ih =>
    obtain ⟨pk, pv⟩ := p
    by_cases hpk : pk = k
    · subst hpk
      by_cases hk' : pk = k' <;> simp [aupsert, alookup, hk']
    · by_cases hk' : pk = k'
      · subst hk'
        have : ¬ k = pk := fun h => hpk h.symm
        simp [aupsert, alookup, hpk, this]
      · simp [aupsert, alookup, hpk, hk', ih]

theorem alookup_aerase (m : List (ℤ × α)) (k k' : ℤ) :
    alookup (aerase m k) k' = if k = k' then none else alookup m k' := by
  induction m with
  | nil => simp [aerase, alookup]
  | cons p rest ih =>
    obtain ⟨pk, pv⟩ := p
    by_cases hpk : pk = k
    · simp only [aerase, if_pos hpk, ih]
      by_cases hkk : k = k'
      · simp [hkk]
      · have hpk' : ¬ pk = k' := by rw [hpk]; exact hkk
        simp [alookup, hkk, hpk']
    · simp only [aerase, if_neg hpk]
      by_cases hpk' : pk = k'
      · have hkk : ¬ k = k' := by
          intro h; rw [← h] at hpk'; exact hpk hpk'
        simp [alookup, hpk', hkk]
      · simp [alookup, hpk', ih]

theorem mapGetD_aupsert (m : List (ℤ × Finset ℤ)) (k k' : ℤ) (s : Finset ℤ) :
    mapGetD (aupsert m k s) k' = if k = k' then s else mapGetD m k' := by
  unfold mapGetD
  rw [alookup_aupsert]
  by_cases h : k = k' <;> simp [h]

theorem acontains_true_iff (m : List (ℤ × α)) (k : ℤ) :
    acontains m k = true ↔ ∃ v, alookup m k = some v := by
  unfold acontains
  cases h : alookup m k <;> simp [h]

theorem alookup_mem (m : List (ℤ × α)) (k : ℤ) (v : α) (h : alookup m k = some v) :
    (k, v) ∈ m := by
  induction m with
  | nil => simp [alookup] at h
  | cons p rest ih =>
    obtain ⟨pk, pv⟩ := p
    by_cases hpk : pk = k
    · subst hpk
      simp [alookup] at h
      simp [h]
    · simp [alookup, hpk] at h
      exact List.mem_cons_of_mem _ (ih h)

theorem alookup_isSome_iff_mem_keys (m : List (ℤ × α)) (k : ℤ) :
    (∃ v, alookup m k = some v) ↔ k ∈ m.map Prod.fst := by
  induction m with
  | nil => simp [alookup]
  | cons p rest ih =>
    obtain ⟨pk, pv⟩ := p
    by_cases hpk : pk = k
    · subst hpk; simp [alookup]
    · have : ¬ k = pk := fun h => hpk h.symm
      simp [alookup, hpk, this, ih]

theorem mem_alookup_of_nodup (m : List (ℤ × α)) (p : ℤ × α)
    (hnd : keysNodup m) (hm : p ∈ m) : alookup m p.1 = some p.2 := by
  induction m with
  | nil => simp at hm
  | cons q rest ih =>
    obtain ⟨qk, qv⟩ := q
    unfold keysNodup at hnd
    simp only [List.map_cons, List.nodup_cons] at hnd
    rcases List.mem_cons.mp hm with h | h
    · rw [h]; simp [alookup]
    · have hk : ¬ qk = p.1 := by
        intro heq
        apply hnd.1
        rw [heq]
        exact List.mem_map_of_mem Prod.fst h
      simp only [alookup, if_neg hk]
      exact ih hnd.2 h

theorem keys_mem_aupsert (m : List (ℤ × α)) (k : ℤ) (v : α) (k0 : ℤ)
    (h : k0 ∈ (aupsert m k v).map Prod.fst) : k0 ∈ m.map Prod.fst ∨ k0 = k := by
  induction m with
  | nil =>
    simp [aupsert] at h
    right; exact h
  | cons q rest ih =>
    obtain ⟨qk, qv⟩ := q
    by_cases hqk : qk = k
    · simp only [aupsert, if_pos hqk, List.map_cons, List.mem_cons] at h
      rcases h with h | h
      · right; exact h
      · left; simp [h]
    · simp only [aupsert, if_neg hqk, List.map_cons, List.mem_cons] at h
      rcases h with h | h
      · left; simp [h]
      · rcases ih h with h1 | h2
        · left; exact List.mem_cons_of_mem _ h1
        · right; exact h2

theorem keysNodup_aupsert (m : List (ℤ × α)) (k : ℤ) (v : α)
    (h : keysNodup m) : keysNodup (aupsert m k v) := by
  induction m with
  | nil => simp [aupsert, keysNodup]
  | cons p rest ih =>
    obtain ⟨pk, pv⟩ := p
    unfold keysNodup at h ⊢
    simp only [List.map_cons, List.nodup_cons] at h
    by_cases hpk : pk = k
    · simp only [aupsert, if_pos hpk, List.map_cons, List.nodup_cons]
      refine ⟨?_, h.2⟩
      rw [← hpk]
      exact h.1
    · simp only [aupsert, if_neg hpk, List.map_cons, List.nodup_cons]
      refine ⟨?_, ih h.2⟩
      intro hmem
      rcases keys_mem_aupsert rest k v pk hmem with h1 | h2
      · exact h.1 h1
      · exact hpk h2

theorem aerase_keys_sublist (m : List (ℤ × α)) (k : ℤ) :
    ((aerase m k).map Prod.fst).Sublist (m.map Prod.fst) := by
  induction m with
  | nil => simp [aerase]
  | cons p rest ih =>
    obtain ⟨pk, pv⟩ := p
    by_cases hpk : pk = k
    · simp only [aerase, if_pos hpk, List.map_cons]
      exact ih.cons _
    · simp only [aerase, if_neg hpk, List.map_cons]
      exact ih.cons₂ _

theorem keysNodup_aerase (m : List (ℤ × α)) (k : ℤ)
    (h : keysNodup m) : keysNodup (aerase m k) := by
  unfold keysNodup at h ⊢
  exact List.Nodup.sublist (aerase_keys_sublist m k) h

/-- Vec2 value type.  Modelled from the spec: the geometry source
(`rkviewer/canvas/geometry.py`) is not part of the provided sources; the
spec describes `Vec2` as an immutable 2D float pair, default-constructed
as the origin.  Only construction and field access are exercised by the
model layer under verification. -/
structure Vec2 where
  x : ℚ := 0
  y : ℚ := 0
deriving DecidableEq

/-- Source `TColor` dataclass: RGBA color, alpha defaulting to 255. -/
structure TColor where
  r : ℤ
  g : ℤ
  b : ℤ
  a : ℤ := 255
deriving DecidableEq

/-- Source `TFont` class with its constructor defaults. -/
structure TFont where
  pointSize : ℤ := 20
  family : String := "default"
  style : String := "normal"
  weight : String := "default"
  name : String := ""
  color : TColor := ⟨0, 0, 0, 255⟩
deriving DecidableEq

/-- Source `TNode` dataclass with its field defaults. -/
structure TNode where
  id : String
  position : Vec2
  rectSize : Vec2
  floating : Bool
  compi : ℤ := -1
  fillColor : TColor := ⟨255, 150, 80, 255⟩
  outlineColor : TColor := ⟨255, 100, 80, 255⟩
  outlineThickness : ℚ := 3
  font : TFont := {}
deriving DecidableEq

/-- Source `TSpeciesNode` dataclass: one endpoint of a reaction. -/
structure TSpeciesNode where
  stoich : ℚ
  handlePos : Vec2 := {}
deriving DecidableEq

/-- Source `TReaction` dataclass with its field defaults. -/
structure TReaction where
  id : String
  centerPos : Option Vec2 := none
  rateLaw : String := ""
  reactants : List (ℤ × TSpeciesNode) := []
  products : List (ℤ × TSpeciesNode) := []
  fillColor : TColor := ⟨255, 150, 80, 255⟩
  thickness : ℚ := 3
  centerHandlePos : Vec2 := {}
  bezierCurves : Bool := true
deriving DecidableEq

/-- Source `TCompartment` dataclass with its field defaults. -/
structure TCompartment where
  id : String
  position : Vec2
  rectSize : Vec2
  node_indices : Finset ℤ := ∅
  volume : ℚ := 1
  fillColor : TColor := ⟨0, 247, 255, 255⟩
  outlineColor : TColor := ⟨0, 106, 255, 255⟩
  outlineThickness : ℚ := 2
deriving DecidableEq

/-- Source `TNetwork` record.  `srcMap` and `destMap` are the derived
node-to-reaction indices (defaultdicts in the source, read through
`mapGetD`). -/
structure TNetwork where
  id : String
  nodes : List (ℤ × TNode)
  reactions : List (ℤ × TReaction)
  compartments : List (ℤ × TCompartment)
  baseNodes : Finset ℤ
  srcMap : List (ℤ × Finset ℤ)
  destMap : List (ℤ × Finset ℤ)
  lastNodeIdx : ℤ
  lastReactionIdx : ℤ
  lastCompartmentIdx : ℤ
deriving DecidableEq

/-- Helper for `TNetwork.__init__`: registers reaction `r` in a
defaultdict for every node key in `keys`.  Used for building `srcMap`
and `destMap` and by `TNetwork.addReaction`. -/
def addToMap (m : List (ℤ × Finset ℤ)) (keys : List ℤ) (r : ℤ) : List (ℤ × Finset ℤ) :=
  keys.foldl (fun m k => aupsert m k (insert r (mapGetD m k))) m

/-- Source `TNetwork.__init__`.  Note the source computes
`baseNodes = set(index for index, n in nodes.items() if n.compi)`: the
membership test is Python truthiness of `n.compi`, i.e. `compi ≠ 0`,
not `compi == -1`. -/
def TNetwork.init (id : String) (nodes : List (ℤ × TNode))
    (reactions : List (ℤ × TReaction)) (compartments : List (ℤ × TCompartment)) :
    TNetwork :=
  { id := id
    nodes := nodes
    reactions := reactions
    compartments := compartments
    baseNodes := ((nodes.filter (fun p => p.2.compi ≠ 0)).map Prod.fst).toFinset
    srcMap := reactions.foldl
      (fun m p => addToMap m (p.2.reactants.map Prod.fst) p.1) []
    destMap := reactions.foldl
      (fun m p => addToMap m (p.2.products.map Prod.fst) p.1) []
    lastNodeIdx := maxKeyD nodes + 1
    lastReactionIdx := maxKeyD reactions + 1
    lastCompartmentIdx := maxKeyD compartments + 1 }

/-- Source `TNetwork.addNode`. -/
def TNetwork.addNode (net : TNetwork) (node : TNode) : TNetwork :=
  { net with
    nodes := aupsert net.nodes net.lastNodeIdx node
    baseNodes := insert net.lastNodeIdx net.baseNodes
    lastNodeIdx := net.lastNodeIdx + 1 }

/-- Source `TNetwork.addReaction`. -/
def TNetwork.addReaction (net : TNetwork) (rea : TReaction) : TNetwork :=
  { net with
    reactions := aupsert net.reactions net.lastReactionIdx rea
    srcMap := addToMap net.srcMap (rea.reactants.map Prod.fst) net.lastReactionIdx
    destMap := addToMap net.destMap (rea.products.map Prod.fst) net.lastReactionIdx
    lastReactionIdx := net.lastReactionIdx + 1 }

/-- Source `TNetwork.addCompartment` (the returned index is
`net.lastCompartmentIdx` of the argument). -/
def TNetwork.addCompartment (net : TNetwork) (comp : TCompartment) : TNetwork :=
  { net with
    compartments := aupsert net.compartments net.lastCompartmentIdx comp
    lastCompartmentIdx := net.lastCompartmentIdx + 1 }

/-- The closed taxonomy of raised errors: the exception classes of
`ExceptionDict` plus the unchecked Python exceptions the model layer can
raise (`KeyError` from `set.remove`/dict subscript, `AssertionError`,
and plain `ValueError` raised directly). -/
inductive Err where
  | other
  | idNotFound
  | idRepeat
  | nodeNotFree
  | netIndex
  | reactionIndex
  | nodeIndex
  | stoich
  | stackEmpty
  | jsonErr
  | fileErr
  | valueErr
  | compartmentIndex
  | keyError
  | assertError
deriving DecidableEq

/-- Source `ExceptionDict`: the exception class raised for a negative
`errCode`. -/
def errOfCode (c : ℤ) : Err :=
  if c = -2 then .idNotFound
  else if c = -3 then .idRepeat
  else if c = -4 then .nodeNotFree
  else if c = -5 then .netIndex
  else if c = -6 then .reactionIndex
  else if c = -7 then .nodeIndex
  else if c = -8 then .stoich
  else if c = -9 then .stackEmpty
  else if c = -10 then .jsonErr
  else if c = -11 then .fileErr
  else if c = -12 then .valueErr
  else if c = -13 then .compartmentIndex
  else .other

/-- Decidable equality for `Except` results (absent from the library
version in use); needed to evaluate call results on concrete inputs. -/
instance {ε α : Type u} [DecidableEq ε] [DecidableEq α] : DecidableEq (Except ε α) := fun x y =>
  match x, y with
  | .error e, .error f =>
    if h : e = f then .isTrue (by rw [h]) else .isFalse (fun hc => h (Except.error.inj hc))
  | .error _, .ok _ => .isFalse (fun hc => Except.noConfusion hc)
  | .ok _, .error _ => .isFalse (fun hc => Except.noConfusion hc)
  | .ok a, .ok b =>
    if h : a = b then .isTrue (by rw [h]) else .isFalse (fun hc => h (Except.ok.inj hc))

/-- The module-level mutable state of `iodine.py`: `stackFlag`,
`errCode`, `networkDict`, `netSetStack`, `redoStack`, `lastNetIndex`.
Stacks push/pop at the head of the list (the source appends/pops at the
end of a Python list; the stack discipline is identical).  `TStack.push`
deep-copies its argument, which is the identity on immutable Lean
values.  The unused `TNetworkDict.lastNetIndex` attribute (always 0) is
omitted; the source only ever uses the module global `lastNetIndex`. -/
structure GState where
  stackFlag : Bool
  errCode : ℤ
  networkDict : List (ℤ × TNetwork)
  netSetStack : List (List (ℤ × TNetwork))
  redoStack : List (List (ℤ × TNetwork))
  lastNetIndex : ℤ
deriving DecidableEq

/-- The initial module state. -/
def initSt : GState :=
  { stackFlag := true, errCode := 0, networkDict := [],
    netSetStack := [], redoStack := [], lastNetIndex := 0 }

/-- Source `_pushUndoStack`: when `stackFlag` is set, reset the redo stack and
push a snapshot of `networkDict` onto the undo stack; otherwise (inside
an open group) do nothing. -/
def pushUndoStack (st : GState) : GState :=
  if st.stackFlag then
    { st with redoStack := [], netSetStack := st.networkDict :: st.netSetStack }
  else st

/-- Source `undo()`: resets `errCode` to 0; on an empty undo stack sets
`errCode = -9` and raises `StackEmpty`; otherwise pushes the current
registry onto the redo stack and restores the popped snapshot. -/
def undo (st : GState) : Except Err Unit × GState :=
  let st := { st with errCode := 0 }
  match st.netSetStack with
  | [] => (.error .stackEmpty, { st with errCode := -9 })
  | d :: rest =>
    (.ok (), { st with redoStack := st.networkDict :: st.redoStack,
                       networkDict := d, netSetStack := rest })

/-- Source `redo()`.  Unlike `undo`, the source does not reset `errCode` at
entry; after performing the restore it still executes
`if errCode < 0: raise ExceptionDict[errCode]`, so a stale negative
`errCode` from an earlier failed call makes a successful redo raise. -/
def redo (st : GState) : Except Err Unit × GState :=
  match st.redoStack with
  | [] => (.error .stackEmpty, { st with errCode := -9 })
  | d :: rest =>
    let st := { st with netSetStack := st.networkDict :: st.netSetStack,
                        networkDict := d, redoStack := rest }
    if st.errCode < 0 then (.error (errOfCode st.errCode), st) else (.ok (), st)

/-- Source `startGroup()`: unconditionally resets the redo stack, pushes a
snapshot of the registry, and clears `stackFlag`. -/
def startGroup (st : GState) : GState :=
  { st with redoStack := [], netSetStack := st.networkDict :: st.netSetStack,
            stackFlag := false }

/-- Source `endGroup()`: sets `stackFlag` back to true. -/
def endGroup (st : GState) : GState :=
  { st with stackFlag := true }

/-- Source `newNetwork(netID)`. -/
def newNetwork (netID : String) (st : GState) : Except Err Unit × GState :=
  let st := { st with errCode := 0 }
  if (avalues st.networkDict).any (fun net => decide (net.id = netID)) then
    (.error .idRepeat, { st with errCode := -3 })
  else
    let st := pushUndoStack st
    (.ok (), { st with
      networkDict := aupsert st.networkDict st.lastNetIndex (TNetwork.init netID [] [] [])
      lastNetIndex := st.lastNetIndex + 1 })

/-- Source `deleteNetwork(neti)`. -/
def deleteNetwork (neti : ℤ) (st : GState) : Except Err Unit × GState :=
  let st := { st with errCode := 0 }
  if acontains st.networkDict neti then
    let st := pushUndoStack st
    (.ok (), { st with networkDict := aerase st.networkDict neti })
  else
    (.error .netIndex, { st with errCode := -5 })

/-- Source `clearNetworks()`: always succeeds; pushes a snapshot, empties the
registry and resets `lastNetIndex`. -/
def clearNetworks (st : GState) : GState :=
  let st := { st with errCode := 0 }
  let st := pushUndoStack st
  { st with networkDict := [], lastNetIndex := 0 }

/-- Source `_addNetwork(network)`: duplicate-id scan, snapshot push, insert at
`lastNetIndex`.  Returns the assigned index. -/
def addNetworkHelper (network : TNetwork) (st : GState) : Except Err ℤ × GState :=
  if (avalues st.networkDict).any (fun net => decide (net.id = network.id)) then
    (.error .idRepeat, { st with errCode := -3 })
  else
    let st := pushUndoStack st
    (.ok st.lastNetIndex, { st with
      networkDict := aupsert st.networkDict st.lastNetIndex network
      lastNetIndex := st.lastNetIndex + 1 })

/-- Source `clearNetwork(neti)`: replaces the network with a fresh
`TNetwork(id)`. -/
def clearNetwork (neti : ℤ) (st : GState) : Except Err Unit × GState :=
  let st := { st with errCode := 0 }
  match alookup st.networkDict neti with
  | none => (.error .netIndex, { st with errCode := -5 })
  | some net =>
    let st := pushUndoStack st
    (.ok (), { st with
      networkDict := aupsert st.networkDict neti (TNetwork.init net.id [] [] []) })

/-- Source `addNode(neti, nodeID, x, y, w, h, floatingNode)`.  The body runs in
a `try`/`finally` that raises iff the module `errCode` is negative;
`_getNetwork` raises `NetIndexError` without touching the module
`errCode` (its assignment is to a function-local variable). -/
def addNode (neti : ℤ) (nodeID : String) (x y w h : ℚ) (floatingNode : Bool)
    (st : GState) : Except Err Unit × GState :=
  let st := { st with errCode := 0 }
  match alookup st.networkDict neti with
  | none => (.error .netIndex, st)
  | some n =>
    if (avalues n.nodes).any (fun node => decide (node.id = nodeID)) then
      (.error .idRepeat, { st with errCode := -3 })
    else if x < 0 ∨ y < 0 ∨ w ≤ 0 ∨ h ≤ 0 then
      (.error .valueErr, { st with errCode := -12 })
    else
      let st := pushUndoStack st
      let newNode : TNode :=
        { id := nodeID, position := ⟨x, y⟩, rectSize := ⟨w, h⟩, floating := floatingNode }
      (.ok (), { st with networkDict := aupsert st.networkDict neti (n.addNode newNode) })

/-- Source `deleteNode(neti, nodei)`.  Succeeds only when the node's `srcMap`
and `destMap` entries are both empty; on success removes the node from
its container (`baseNodes` or its compartment's `node_indices`) and from
`nodes`.  Python `set.remove` and dict subscript raise `KeyError` when
the expected membership does not hold. -/
def deleteNode (neti nodei : ℤ) (st : GState) : Except Err Unit × GState :=
  match alookup st.networkDict neti with
  | none => (.error .netIndex, { st with errCode := -5 })
  | some n =>
    match alookup n.nodes nodei with
    | none => (.error .nodeIndex, { st with errCode := -7 })
    | some node =>
      if mapGetD n.srcMap nodei = ∅ ∧ mapGetD n.destMap nodei = ∅ then
        let st := { st with errCode := 0 }
        let st := pushUndoStack st
        let st := { st with networkDict := aupsert st.networkDict neti n }
        if node.compi = -1 then
          if nodei ∈ n.baseNodes then
            let n' := { n with baseNodes := n.baseNodes.erase nodei,
                               nodes := aerase n.nodes nodei }
            (.ok (), { st with networkDict := aupsert st.networkDict neti n' })
          else (.error .keyError, st)
        else
          match alookup n.compartments node.compi with
          | none => (.error .keyError, st)
          | some c =>
            if nodei ∈ c.node_indices then
              let n' := { n with
                compartments := aupsert n.compartments node.compi
                  ({ c with node_indices := c.node_indices.erase nodei })
                nodes := aerase n.nodes nodei }
              (.ok (), { st with networkDict := aupsert st.networkDict neti n' })
            else (.error .keyError, st)
      else
        (.error .nodeNotFree, { st with errCode := -4 })

/-- Source `setNodeID(neti, nodei, newID)`. -/
def setNodeID (neti nodei : ℤ) (newID : String) (st : GState) :
    Except Err Unit × GState :=
  let st := { st with errCode := 0 }
  match alookup st.networkDict neti with
  | none => (.error .netIndex, { st with errCode := -5 })
  | some net =>
    match alookup net.nodes nodei with
    | none => (.error .nodeIndex, { st with errCode := -7 })
    | some node =>
      if (avalues net.nodes).any (fun n => decide (n.id = newID)) then
        (.error .idRepeat, { st with errCode := -3 })
      else
        let st := pushUndoStack st
        let net' := { net with nodes := aupsert net.nodes nodei ({ node with id := newID }) }
        (.ok (), { st with networkDict := aupsert st.networkDict neti net' })

/-- Source `setNodeCoordinate(neti, nodei, x, y, allowNegativeCoordinates)`. -/
def setNodeCoordinate (neti nodei : ℤ) (x y : ℚ) (allowNegativeCoordinates : Bool)
    (st : GState) : Except Err Unit × GState :=
  let st := { st with errCode := 0 }
  let lowerLimit : ℚ := if allowNegativeCoordinates then -(10 ^ 12) else 0
  match alookup st.networkDict neti with
  | none => (.error .netIndex, { st with errCode := -5 })
  | some n =>
    match alookup n.nodes nodei with
    | none => (.error .nodeIndex, { st with errCode := -7 })
    | some node =>
      if x < lowerLimit ∨ y < lowerLimit then
        (.error .valueErr, { st with errCode := -12 })
      else
        let st := pushUndoStack st
        let n' := { n with nodes := aupsert n.nodes nodei ({ node with position := ⟨x, y⟩ }) }
        (.ok (), { st with networkDict := aupsert st.networkDict neti n' })

/-- Source `setNodeSize(neti, nodei, w, h)`. -/
def setNodeSize (neti nodei : ℤ) (w h : ℚ) (st : GState) :
    Except Err Unit × GState :=
  let st := { st with errCode := 0 }
  match alookup st.networkDict neti with
  | none => (.error .netIndex, { st with errCode := -5 })
  | some n =>
    match alookup n.nodes nodei with
    | none => (.error .nodeIndex, { st with errCode := -7 })
    | some node =>
      if w ≤ 0 ∨ h ≤ 0 then
        (.error .valueErr, { st with errCode := -12 })
      else
        let st := pushUndoStack st
        let n' := { n with nodes := aupsert n.nodes nodei ({ node with rectSize := ⟨w, h⟩ }) }
        (.ok (), { st with networkDict := aupsert st.networkDict neti n' })

/-- Source `setNodeFloatingStatus(neti, nodei, floatingStatus)`. -/
def setNodeFloatingStatus (neti nodei : ℤ) (floatingStatus : Bool) (st : GState) :
    Except Err Unit × GState :=
  let st := { st with errCode := 0 }
  match alookup st.networkDict neti with
  | none => (.error .netIndex, { st with errCode := -5 })
  | some n =>
    match alookup n.nodes nodei with
    | none => (.error .nodeIndex, { st with errCode := -7 })
    | some node =>
      let st := pushUndoStack st
      let n' := { n with nodes := aupsert n.nodes nodei ({ node with floating := floatingStatus }) }
      (.ok (), { st with networkDict := aupsert st.networkDict neti n' })

/-- Source `createReaction(neti, reaID, sources, targets)`.  Raises a plain
`ValueError` (without touching `errCode`) for an empty endpoint list or
when the source set equals the target set; duplicate indices within one
list collapse to a single default-stoichiometry entry. -/
def createReaction (neti : ℤ) (reaID : String) (sources targets : List ℤ)
    (st : GState) : Except Err Unit × GState :=
  let st := { st with errCode := 0 }
  if sources = [] ∨ targets = [] then (.error .valueErr, st)
  else
    match alookup st.networkDict neti with
    | none => (.error .netIndex, st)
    | some net =>
      if (avalues net.reactions).any (fun r => decide (r.id = reaID)) then
        (.error .idRepeat, { st with errCode := -3 })
      else if sources.any (fun i => ! acontains net.nodes i) then
        (.error .nodeIndex, { st with errCode := -7 })
      else if targets.any (fun i => ! acontains net.nodes i) then
        (.error .nodeIndex, { st with errCode := -7 })
      else if sources.toFinset = targets.toFinset then
        (.error .valueErr, st)
      else
        let st := pushUndoStack st
        let newReact : TReaction :=
          { id := reaID
            reactants := sources.foldl (fun m i => aupsert m i { stoich := 1 }) []
            products := targets.foldl (fun m i => aupsert m i { stoich := 1 }) [] }
        (.ok (), { st with
          networkDict := aupsert st.networkDict neti (net.addReaction newReact) })

/-- The removal loop of `deleteReaction`: for each node key, Python runs
`map[key].remove(reai)`, which raises `KeyError` when `reai` is absent
from the set, leaving the removals already performed in place. -/
def removeFromMap (r : ℤ) (keys : List ℤ) (m : List (ℤ × Finset ℤ)) :
    Except Err Unit × List (ℤ × Finset ℤ) :=
  match keys with
  | [] => (.ok (), m)
  | k :: ks =>
    if r ∈ mapGetD m k then
      removeFromMap r ks (aupsert m k ((mapGetD m k).erase r))
    else (.error .keyError, m)

/-- Source `deleteReaction(neti, reai)`: validates the indices, pushes a
snapshot, deregisters the reaction from `srcMap`/`destMap`, and deletes
it from `reactions`. -/
def deleteReaction (neti reai : ℤ) (st : GState) : Except Err Unit × GState :=
  let st := { st with errCode := 0 }
  match alookup st.networkDict neti with
  | none => (.error .netIndex, { st with errCode := -5 })
  | some net =>
    match alookup net.reactions reai with
    | none => (.error .reactionIndex, { st with errCode := -6 })
    | some reaction =>
      let st := pushUndoStack st
      match removeFromMap reai (reaction.reactants.map Prod.fst) net.srcMap with
      | (.error e, srcMap') =>
        let net' := { net with srcMap := srcMap' }
        (.error e, { st with networkDict := aupsert st.networkDict neti net' })
      | (.ok _, srcMap') =>
        match removeFromMap reai (reaction.products.map Prod.fst) net.destMap with
        | (.error e, destMap') =>
          let net' := { net with srcMap := srcMap', destMap := destMap' }
          (.error e, { st with networkDict := aupsert st.networkDict neti net' })
        | (.ok _, destMap') =>
          let net' := { net with srcMap := srcMap', destMap := destMap',
                                 reactions := aerase net.reactions reai }
          (.ok (), { st with networkDict := aupsert st.networkDict neti net' })

/-- Source `clearReactions(neti)`. -/
def clearReactions (neti : ℤ) (st : GState) : Except Err Unit × GState :=
  let st := { st with errCode := 0 }
  match alookup st.networkDict neti with
  | none => (.error .netIndex, { st with errCode := -5 })
  | some net =>
    let st := pushUndoStack st
    let net' := { net with reactions := ([] : List (ℤ × TReaction)),
                           srcMap := ([] : List (ℤ × Finset ℤ)),
                           destMap := ([] : List (ℤ × Finset ℤ)) }
    (.ok (), { st with networkDict := aupsert st.networkDict neti net' })

/-- Source `setReactionID(neti, reai, newID)`. -/
def setReactionID (neti reai : ℤ) (newID : String) (st : GState) :
    Except Err Unit × GState :=
  let st := { st with errCode := 0 }
  match alookup st.networkDict neti with
  | none => (.error .netIndex, { st with errCode := -5 })
  | some net =>
    match alookup net.reactions reai with
    | none => (.error .reactionIndex, { st with errCode := -6 })
    | some rea =>
      if (avalues net.reactions).any (fun r => decide (r.id = newID)) then
        (.error .idRepeat, { st with errCode := -3 })
      else
        let st := pushUndoStack st
        let net' := { net with reactions := aupsert net.reactions reai ({ rea with id := newID }) }
        (.ok (), { st with networkDict := aupsert st.networkDict neti net' })

/-- Source `setRateLaw(neti, reai, rateLaw)`. -/
def setRateLaw (neti reai : ℤ) (rateLaw : String) (st : GState) :
    Except Err Unit × GState :=
  let st := { st with errCode := 0 }
  match alookup st.networkDict neti with
  | none => (.error .netIndex, { st with errCode := -5 })
  | some net =>
    match alookup net.reactions reai with
    | none => (.error .reactionIndex, { st with errCode := -6 })
    | some rea =>
      let st := pushUndoStack st
      let net' := { net with reactions := aupsert net.reactions reai ({ rea with rateLaw := rateLaw }) }
      (.ok (), { st with networkDict := aupsert st.networkDict neti net' })

/-- Source `addCompartment(neti, compID, x, y, w, h)`: validates the geometry
and id, pushes a snapshot, and inserts the compartment at
`lastCompartmentIdx`, returning that index.  Note the source checks the
coordinates before resolving the network. -/
def addCompartment (neti : ℤ) (compID : String) (x y w h : ℚ) (st : GState) :
    Except Err ℤ × GState :=
  if x < 0 ∨ y < 0 ∨ w < 0 ∨ h < 0 then
    (.error .valueErr, { st with errCode := -12 })
  else
    match alookup st.networkDict neti with
    | none => (.error .netIndex, st)
    | some net =>
      if (avalues net.compartments).any (fun c => decide (compID = c.id)) then
        (.error .idRepeat, { st with errCode := -3 })
      else
        let st := pushUndoStack st
        let comp : TCompartment := { id := compID, position := ⟨x, y⟩, rectSize := ⟨w, h⟩ }
        (.ok net.lastCompartmentIdx,
         { st with networkDict := aupsert st.networkDict neti (net.addCompartment comp) })

/-- The loop body of `deleteCompartment`: move one member node to the
base set (`compi := -1`, added to `baseNodes`). -/
def moveNodeToBase (acc : TNetwork) (nodei : ℤ) : TNetwork :=
  match alookup acc.nodes nodei with
  | some nd => { acc with nodes := aupsert acc.nodes nodei ({ nd with compi := -1 }),
                          baseNodes := insert nodei acc.baseNodes }
  | none => acc

/-- Source `deleteCompartment(neti, compi)`: moves every member node to the
base set (asserting that its `compi` reference points back at the
compartment) and deletes the compartment.  When the `assert` fails or a
member index is missing from `nodes`, Python raises out of the loop; the
set-iteration order, and hence the exact partially-updated state in
that case, is unspecified, so the failure branch returns the
pre-loop (post-snapshot) state. -/
def deleteCompartment (neti compi : ℤ) (st : GState) : Except Err Unit × GState :=
  match alookup st.networkDict neti with
  | none => (.error .netIndex, st)
  | some net =>
    match alookup net.compartments compi with
    | none => (.error .compartmentIndex, { st with errCode := -13 })
    | some c =>
      let st := pushUndoStack st
      if (c.node_indices.sort (fun a b => a ≤ b)).all
          (fun nodei => ((alookup net.nodes nodei).map
            (fun nd => decide (nd.compi = compi))).getD false) then
        let net1 := (c.node_indices.sort (fun a b => a ≤ b)).foldl moveNodeToBase net
        let net2 := { net1 with compartments := aerase net1.compartments compi }
        (.ok (), { st with networkDict := aupsert st.networkDict neti net2 })
      else
        (.error .assertError, st)

/-- Source `setCompartmentOfNode(neti, nodei, compi)`.  After validating the
node, the source pushes a snapshot, removes the node from its current
container (its old compartment's `node_indices`, or `baseNodes`), and
only then resolves the target compartment — so a missing target index
raises `CompartmentIndexError` after the removal has already been
applied to the registry. -/
def setCompartmentOfNode (neti nodei compi : ℤ) (st : GState) :
    Except Err Unit × GState :=
  match alookup st.networkDict neti with
  | none => (.error .netIndex, st)
  | some net =>
    match alookup net.nodes nodei with
    | none => (.error .nodeIndex, { st with errCode := -7 })
    | some node =>
      let st := pushUndoStack st
      let step1 : Except Err TNetwork :=
        if node.compi ≠ -1 then
          match alookup net.compartments node.compi with
          | none => .error .keyError
          | some c =>
            if nodei ∈ c.node_indices then
              let comps' := aupsert net.compartments node.compi
                ({ c with node_indices := c.node_indices.erase nodei })
              .ok { net with compartments := comps' }
            else .error .keyError
        else
          if nodei ∈ net.baseNodes then
            .ok { net with baseNodes := net.baseNodes.erase nodei }
          else .error .keyError
      match step1 with
      | .error e => (.error e, st)
      | .ok net1 =>
        if compi ≠ -1 then
          match alookup net1.compartments compi with
          | none =>
            (.error .compartmentIndex,
             { st with errCode := -13,
                       networkDict := aupsert st.networkDict neti net1 })
          | some c2 =>
            let comps2 := aupsert net1.compartments compi
              ({ c2 with node_indices := insert nodei c2.node_indices })
            let net2 := { net1 with compartments := comps2 }
            let net3 := { net2 with nodes := aupsert net2.nodes nodei ({ node with compi := compi }) }
            (.ok (), { st with networkDict := aupsert st.networkDict neti net3 })
        else
          let net2 := { net1 with baseNodes := insert nodei net1.baseNodes }
          let net3 := { net2 with nodes := aupsert net2.nodes nodei ({ node with compi := compi }) }
          (.ok (), { st with networkDict := aupsert st.networkDict neti net3 })

/-- Source `setCompartmentID(neti, compi, id)`: pushes the snapshot before
resolving the compartment and performs no duplicate-id scan at all. -/
def setCompartmentID (neti compi : ℤ) (id : String) (st : GState) :
    Except Err Unit × GState :=
  let st := pushUndoStack st
  match alookup st.networkDict neti with
  | none => (.error .netIndex, st)
  | some net =>
    match alookup net.compartments compi with
    | none => (.error .compartmentIndex, { st with errCode := -13 })
    | some c =>
      let net' := { net with compartments := aupsert net.compartments compi ({ c with id := id }) }
      (.ok (), { st with networkDict := aupsert st.networkDict neti net' })

/-- The catalogue of mutating Mutation API operations embedded here:
each constructor is one source entry point with its arguments.  (The
source has many more narrow field setters of exactly the shape of
`setNodeFloatingStatus`/`setRateLaw`; the catalogue covers all
operations the claims name plus representatives of every control-flow
shape.) -/
inductive Op where
  | addNode (neti : ℤ) (nodeID : String) (x y w h : ℚ) (floating : Bool)
  | deleteNode (neti nodei : ℤ)
  | setNodeID (neti nodei : ℤ) (newID : String)
  | setNodeCoordinate (neti nodei : ℤ) (x y : ℚ) (allowNeg : Bool)
  | setNodeSize (neti nodei : ℤ) (w h : ℚ)
  | setNodeFloatingStatus (neti nodei : ℤ) (b : Bool)
  | createReaction (neti : ℤ) (reaID : String) (sources targets : List ℤ)
  | deleteReaction (neti reai : ℤ)
  | clearReactions (neti : ℤ)
  | setReactionID (neti reai : ℤ) (newID : String)
  | setRateLaw (neti reai : ℤ) (rateLaw : String)
  | addCompartment (neti : ℤ) (compID : String) (x y w h : ℚ)
  | deleteCompartment (neti compi : ℤ)
  | setCompartmentOfNode (neti nodei compi : ℤ)
  | setCompartmentID (neti compi : ℤ) (id : String)
  | newNetwork (netID : String)
  | deleteNetwork (neti : ℤ)
  | clearNetwork (neti : ℤ)
  | clearNetworksOp

/-- Execute one operation on the module state, keeping the state whether
or not the call raised. -/
def runOp (op : Op) (st : GState) : GState :=
  match op with
  | .addNode neti nodeID x y w h fl => (addNode neti nodeID x y w h fl st).2
  | .deleteNode neti nodei => (deleteNode neti nodei st).2
  | .setNodeID neti nodei newID => (setNodeID neti nodei newID st).2
  | .setNodeCoordinate neti nodei x y an => (setNodeCoordinate neti nodei x y an st).2
  | .setNodeSize neti nodei w h => (setNodeSize neti nodei w h st).2
  | .setNodeFloatingStatus neti nodei b => (setNodeFloatingStatus neti nodei b st).2
  | .createReaction neti reaID ss ts => (createReaction neti reaID ss ts st).2
  | .deleteReaction neti reai => (deleteReaction neti reai st).2
  | .clearReactions neti => (clearReactions neti st).2
  | .setReactionID neti reai newID => (setReactionID neti reai newID st).2
  | .setRateLaw neti reai rl => (setRateLaw neti reai rl st).2
  | .addCompartment neti compID x y w h => (addCompartment neti compID x y w h st).2
  | .deleteCompartment neti compi => (deleteCompartment neti compi st).2
  | .setCompartmentOfNode neti nodei compi => (setCompartmentOfNode neti nodei compi st).2
  | .setCompartmentID neti compi id => (setCompartmentID neti compi id st).2
  | .newNetwork netID => (newNetwork netID st).2
  | .deleteNetwork neti => (deleteNetwork neti st).2
  | .clearNetwork neti => (clearNetwork neti st).2
  | .clearNetworksOp => clearNetworks st

/-- Execute a sequence of operations left to right. -/
def runOps (ops : List Op) (st : GState) : GState :=
  ops.foldl (fun s op => runOp op s) st

/-!
Serialization model (`dumpNetwork`/`loadNetwork` and the marshmallow
schemas).  A schema field is dumped by reading the object attribute of
the same name; an attribute that does not exist is silently omitted from
the dump, and a field absent from the loaded data is simply not passed
to the `post_load` constructor, whose dataclass defaults then apply.
Consequently the dumped record types below contain exactly the fields
that are actually emitted:

  * `NodeSchema` declares `compartment`, but `TNode`'s attribute is
    `compi`, so no compartment field is dumped and every loaded node
    gets the default `compi = -1`;
  * `CompartmentSchema` declares `nodes`, but `TCompartment`'s attribute
    is `node_indices`, so no member list is dumped and every loaded
    compartment gets the default empty `node_indices`;
  * `ReactionSchema` has no field for `centerPos` or `bezierCurves`, so
    these reset to their defaults on load.

`Color` serializes `TColor` as `[r,g,b]` or `[r,g,b,a]` and validates
each channel into `[0,255]` on load; `Dim` validates nonnegativity.
These validations are modelled on the loaded values.
-/

/-- The fields of a node actually emitted by `NodeSchema.dump`. -/
structure DNode where
  id : String
  position : Vec2
  rectSize : Vec2
  floating : Bool
  fillColor : TColor
  outlineColor : TColor
  outlineThickness : ℚ
deriving DecidableEq

/-- The fields emitted by `SpeciesNode.dump`. -/
structure DSpecies where
  stoich : ℚ
  handlePos : Vec2
deriving DecidableEq

/-- The fields emitted by `ReactionSchema.dump`. -/
structure DReaction where
  id : String
  rateLaw : String
  reactants : List (ℤ × DSpecies)
  products : List (ℤ × DSpecies)
  fillColor : TColor
  thickness : ℚ
  centerHandlePos : Vec2
deriving DecidableEq

/-- The fields emitted by `CompartmentSchema.dump`. -/
structure DCompartment where
  id : String
  position : Vec2
  rectSize : Vec2
  volume : ℚ
  fillColor : TColor
  outlineColor : TColor
  outlineThickness : ℚ
deriving DecidableEq

/-- The dump of a whole network (`NetworkSchema.dump`). -/
structure DNetwork where
  id : String
  nodes : List (ℤ × DNode)
  reactions : List (ℤ × DReaction)
  compartments : List (ℤ × DCompartment)
deriving DecidableEq

/-- Source `dumpNetwork(neti)`. -/
def dumpNetwork (neti : ℤ) (st : GState) : Except Err DNetwork :=
  match alookup st.networkDict neti with
  | none => .error .netIndex
  | some net =>
    .ok { id := net.id
          nodes := net.nodes.map (fun p =>
            (p.1, { id := p.2.id, position := p.2.position, rectSize := p.2.rectSize,
                    floating := p.2.floating, fillColor := p.2.fillColor,
                    outlineColor := p.2.outlineColor,
                    outlineThickness := p.2.outlineThickness }))
          reactions := net.reactions.map (fun p =>
            (p.1, { id := p.2.id, rateLaw := p.2.rateLaw,
                    reactants := p.2.reactants.map (fun q =>
                      (q.1, { stoich := q.2.stoich, handlePos := q.2.handlePos })),
                    products := p.2.products.map (fun q =>
                      (q.1, { stoich := q.2.stoich, handlePos := q.2.handlePos })),
                    fillColor := p.2.fillColor, thickness := p.2.thickness,
                    centerHandlePos := p.2.centerHandlePos }))
          compartments := net.compartments.map (fun p =>
            (p.1, { id := p.2.id, position := p.2.position, rectSize := p.2.rectSize,
                    volume := p.2.volume, fillColor := p.2.fillColor,
                    outlineColor := p.2.outlineColor,
                    outlineThickness := p.2.outlineThickness })) }

/-- Source `Color._deserialize` channel validation. -/
def colorValid (c : TColor) : Bool :=
  decide (0 ≤ c.r ∧ c.r ≤ 255 ∧ 0 ≤ c.g ∧ c.g ≤ 255 ∧
          0 ≤ c.b ∧ c.b ≤ 255 ∧ 0 ≤ c.a ∧ c.a ≤ 255)

/-- Source `Dim2` validation: both components nonnegative (`Dim` is a float
with `validate.Range(min=0)`). -/
def dim2Valid (v : Vec2) : Bool :=
  decide (0 ≤ v.x ∧ 0 ≤ v.y)

/-- Validation performed by `net_schema.load` on a dumped object. -/
def dnetValid (d : DNetwork) : Bool :=
  d.nodes.all (fun p =>
    dim2Valid p.2.position && dim2Valid p.2.rectSize && colorValid p.2.fillColor &&
    colorValid p.2.outlineColor && decide (0 ≤ p.2.outlineThickness)) &&
  d.reactions.all (fun p =>
    colorValid p.2.fillColor && decide (0 ≤ p.2.thickness) &&
    dim2Valid p.2.centerHandlePos &&
    p.2.reactants.all (fun q => dim2Valid q.2.handlePos) &&
    p.2.products.all (fun q => dim2Valid q.2.handlePos)) &&
  d.compartments.all (fun p =>
    dim2Valid p.2.position && dim2Valid p.2.rectSize && decide (0 ≤ p.2.volume) &&
    colorValid p.2.fillColor && colorValid p.2.outlineColor &&
    decide (0 ≤ p.2.outlineThickness))

/-- The `post_load` reconstruction of the entity graph from a dumped
object: each schema's `post_load` calls the dataclass constructor with
the loaded keys, so the undumped fields take their defaults
(`compi = -1`, `node_indices = ∅`, `centerPos = None`,
`bezierCurves = True`), and `NetworkSchema.post_load` runs
`TNetwork.__init__` on the result. -/
def dnetToNetwork (d : DNetwork) : TNetwork :=
  TNetwork.init d.id
    (d.nodes.map (fun p =>
      (p.1, { id := p.2.id, position := p.2.position, rectSize := p.2.rectSize,
              floating := p.2.floating, fillColor := p.2.fillColor,
              outlineColor := p.2.outlineColor,
              outlineThickness := p.2.outlineThickness })))
    (d.reactions.map (fun p =>
      (p.1, { id := p.2.id, rateLaw := p.2.rateLaw,
              reactants := p.2.reactants.map (fun q =>
                (q.1, { stoich := q.2.stoich, handlePos := q.2.handlePos })),
              products := p.2.products.map (fun q =>
                (q.1, { stoich := q.2.stoich, handlePos := q.2.handlePos })),
              fillColor := p.2.fillColor, thickness := p.2.thickness,
              centerHandlePos := p.2.centerHandlePos })))
    (d.compartments.map (fun p =>
      (p.1, { id := p.2.id, position := p.2.position, rectSize := p.2.rectSize,
              volume := p.2.volume, fillColor := p.2.fillColor,
              outlineColor := p.2.outlineColor,
              outlineThickness := p.2.outlineThickness })))

/-- Source `loadNetwork(net_object)`: load (validating), then `clearNetworks()`
and `_addNetwork(net)`; returns the new index (0). -/
def loadNetwork (d : DNetwork) (st : GState) : Except Err ℤ × GState :=
  if dnetValid d then
    let net := dnetToNetwork d
    let st := clearNetworks st
    addNetworkHelper net st
  else
    (.error .valueErr, st)

/-!
Concrete states used by the individual claim theorems.
-/

/-- A network holding one free node (index 0, id "A", base set member)
and nothing else. -/
def oneNodeNet : TNetwork :=
  { id := "net"
    nodes := [(0, { id := "A", position := {}, rectSize := ⟨1, 1⟩, floating := true })]
    reactions := []
    compartments := []
    baseNodes := {0}
    srcMap := []
    destMap := []
    lastNodeIdx := 1
    lastReactionIdx := 0
    lastCompartmentIdx := 0 }

/-- Registry state holding `oneNodeNet` at index 0. -/
def stOneNode : GState := { initSt with networkDict := [(0, oneNodeNet)] }

/-- C2 claim theorem target state (identical shape, its own name so the
claims stay independent). -/
def stC2case : GState := stOneNode

/-- C2: `setCompartmentOfNode(0, 0, 5)` on a network whose node 0 sits
in the base set and which has no compartment 5.  The call raises
`CompartmentIndexError`, but the node has already been removed from
`baseNodes` (and `compi` still reads `-1`), so the failing call leaves
an observable partial mutation: the node belongs to no container
afterwards. -/
theorem setCompartmentOfNode_partial_mutation_on_missing_target :
    (setCompartmentOfNode 0 0 5 stC2case).1 = Except.error Err.compartmentIndex ∧
    (alookup stC2case.networkDict 0).map TNetwork.baseNodes = some {0} ∧
    (alookup ((setCompartmentOfNode 0 0 5 stC2case).2.networkDict) 0).map
      TNetwork.baseNodes = some ∅ ∧
    (alookup ((setCompartmentOfNode 0 0 5 stC2case).2.networkDict) 0).map
      (fun n => (alookup n.nodes 0).map TNode.compi) = some (some (-1)) := by
  decide

/-- First state of the C4 scenario: one network created from the
initial state. -/
def stC4a : GState := (newNetwork "n" initSt).2

/-- Second state of the C4 scenario: the creation undone (undo stack now
empty, redo stack holding one snapshot). -/
def stC4b : GState := (undo stC4a).2

/-- Third state of the C4 scenario: a second `undo()` has just raised
`StackEmpty`, leaving `errCode = -9`. -/
def stC4c : GState := (undo stC4b).2

/-- C4: after `newNetwork`, `undo`, `undo` (the second raising
`StackEmpty`), the redo stack is non-empty, yet `redo()` still raises
`StackEmpty` — `redo` never resets `errCode`, so the stale `-9` left by
the failed `undo` is re-raised — and it raises only after having already
moved the registry, so the raising call also mutates state. -/
theorem redo_raises_stale_stackEmpty_on_nonempty_stack :
    (undo stC4b).1 = Except.error Err.stackEmpty ∧
    stC4c.redoStack ≠ [] ∧
    (redo stC4c).1 = Except.error Err.stackEmpty ∧
    (redo stC4c).2.networkDict ≠ stC4c.networkDict := by
  decide

/-- C7 counterexample: two consecutive `startGroup()` calls from the
initial state leave the undo stack two snapshots deeper, not one — the
claimed idempotence does not hold. -/
theorem startGroup_twice_not_idempotent_cex :
    ¬ ((startGroup (startGroup initSt)).netSetStack.length =
        initSt.netSetStack.length + 1) := by
  decide

/-- C7 (amended): `startGroup()` pushes a registry snapshot
unconditionally, so a second call without an intervening `endGroup()`
pushes a second (identical) snapshot: the undo stack grows by exactly
two.  The boolean flag cleared by `startGroup` suppresses only the
`_pushUndoStack` calls made by mutating operations, not `startGroup`'s
own push. -/
theorem startGroup_always_pushes_snapshot (st : GState) :
    (startGroup (startGroup st)).netSetStack =
      st.networkDict :: st.networkDict :: st.netSetStack ∧
    (startGroup (startGroup st)).netSetStack.length = st.netSetStack.length + 2 ∧
    (startGroup st).stackFlag = false := by
  refine ⟨rfl, ?_, rfl⟩
  simp [startGroup]

/-- C8 failing input: `TNetwork.__init__` applied to a nodes map whose
node 0 carries `compi = 1` and a compartments map whose compartment 1
lists node 0 — a self-consistent input.  The constructor's truthiness
test (`if n.compi`) puts node 0 into `baseNodes` anyway. -/
def badInitNet : TNetwork :=
  TNetwork.init "net"
    [(0, { id := "A", position := {}, rectSize := ⟨1, 1⟩, floating := true, compi := 1 })]
    []
    [(1, { id := "C", position := {}, rectSize := ⟨2, 2⟩, node_indices := {0} })]

/-- C8: the network built by `TNetwork.__init__` from the failing input
has node 0 both in `baseNodes` and in compartment 1's `node_indices`,
although the node's `compi` is 1: the base set and the compartment node
sets overlap, violating the partition (the source computes `baseNodes`
with Python truthiness `if n.compi` instead of `n.compi == -1`,
contradicting its own field comment "set of node indices not in any
compartment"). -/
theorem tnetwork_init_breaks_partition :
    0 ∈ badInitNet.baseNodes ∧
    (alookup badInitNet.compartments 1).map TCompartment.node_indices = some {0} ∧
    (alookup badInitNet.nodes 0).map TNode.compi = some 1 := by
  decide

/-- C9 failing input: a network whose single node "A" (index 0) belongs
to compartment "C" (index 0). -/
def stRoundTrip : GState :=
  { initSt with networkDict :=
    [(0, { id := "net"
           nodes := [(0, { id := "A", position := {}, rectSize := ⟨1, 1⟩,
                           floating := true, compi := 0 })]
           reactions := []
           compartments := [(0, { id := "C", position := {}, rectSize := ⟨2, 2⟩,
                                  node_indices := {0} })]
           baseNodes := ∅
           srcMap := []
           destMap := []
           lastNodeIdx := 1
           lastReactionIdx := 0
           lastCompartmentIdx := 1 })] }

/-- The dump of the C9 network. -/
def roundTripDump : Except Err DNetwork := dumpNetwork 0 stRoundTrip

/-- The state after `loadNetwork(dumpNetwork(net))` in the C9
scenario. -/
def roundTripLoaded : GState :=
  match roundTripDump with
  | .ok d => (loadNetwork d stRoundTrip).2
  | .error _ => initSt

/-- The result of the C9 `loadNetwork` call. -/
def roundTripResult : Except Err ℤ :=
  match roundTripDump with
  | .ok d => (loadNetwork d stRoundTrip).1
  | .error _ => .error .other

/-- C9: the round trip succeeds, but the reloaded network has lost the
compartment membership: node 0 comes back with `compi = -1` (it was 0)
and compartment 0 comes back with an empty `node_indices` (it held
node 0).  `NodeSchema` names the field `compartment` while the attribute
is `compi`, and `CompartmentSchema` names it `nodes` while the attribute
is `node_indices`, so neither is dumped and both reset to defaults on
load. -/
theorem dump_load_drops_compartment_membership :
    roundTripDump.isOk = true ∧
    roundTripResult = Except.ok 0 ∧
    (alookup stRoundTrip.networkDict 0).map
      (fun n => (alookup n.nodes 0).map TNode.compi) = some (some 0) ∧
    (alookup stRoundTrip.networkDict 0).map
      (fun n => (alookup n.compartments 0).map TCompartment.node_indices) =
      some (some {0}) ∧
    (alookup roundTripLoaded.networkDict 0).map
      (fun n => (alookup n.nodes 0).map TNode.compi) = some (some (-1)) ∧
    (alookup roundTripLoaded.networkDict 0).map
      (fun n => (alookup n.compartments 0).map TCompartment.node_indices) =
      some (some ∅) := by
  decide

/-- State with two compartments "A" (index 0) and "B" (index 1) in
network 0, used for the C5 counterexample. -/
def stTwoComps : GState :=
  { initSt with networkDict :=
    [(0, { id := "net"
           nodes := []
           reactions := []
           compartments := [(0, { id := "A", position := {}, rectSize := ⟨1, 1⟩ }),
                            (1, { id := "B", position := {}, rectSize := ⟨1, 1⟩ })]
           baseNodes := ∅
           srcMap := []
           destMap := []
           lastNodeIdx := 0
           lastReactionIdx := 0
           lastCompartmentIdx := 2 })] }

/-- C5 counterexample: renaming compartment 1 to the id "A" already held
by compartment 0 in the same network succeeds and changes the id — no
`IdRepeat` failure, contradicting the claim for `setCompartmentID`. -/
theorem setCompartmentID_accepts_duplicate_cex :
    (alookup stTwoComps.networkDict 0).map
      (fun n => (alookup n.compartments 0).map TCompartment.id) = some (some "A") ∧
    (setCompartmentID 0 1 "A" stTwoComps).1 = Except.ok () ∧
    (alookup ((setCompartmentID 0 1 "A" stTwoComps).2.networkDict) 0).map
      (fun n => (alookup n.compartments 1).map TCompartment.id) = some (some "A") := by
  decide

/-- A duplicate-id scan over a registry with no match returns false. -/
theorem netDict_any_id_false (m : List (ℤ × TNetwork)) (netID : String)
    (h : ∀ p ∈ m, p.2.id ≠ netID) :
    (avalues m).any (fun net => decide (net.id = netID)) = false := by
  rw [List.any_eq_false]
  intro x hx
  simp only [avalues, List.mem_map] at hx
  obtain ⟨p, hp, rfl⟩ := hx
  simp [h p hp]

/-- C10: `undo()` leaves the module-level `lastNetIndex` counter
unchanged in every state (snapshots capture only `networkDict`), and in
the idle mode, creating a network with a fresh id at index `k`, undoing
the creation (which restores the registry exactly), and creating another
network assigns the new network index `k + 1` — one greater than the
undone network's index, never reusing it. -/
theorem undo_preserves_lastNetIndex_no_reuse (st : GState) (netID netID2 : String)
    (hflag : st.stackFlag = true)
    (h1 : ∀ p ∈ st.networkDict, p.2.id ≠ netID)
    (h2 : ∀ p ∈ st.networkDict, p.2.id ≠ netID2) :
    (∀ s : GState, ((undo s).2).lastNetIndex = s.lastNetIndex) ∧
    alookup ((newNetwork netID st).2).networkDict st.lastNetIndex =
      some (TNetwork.init netID [] [] []) ∧
    ((newNetwork netID st).2).lastNetIndex = st.lastNetIndex + 1 ∧
    (undo ((newNetwork netID st).2)).1 = Except.ok () ∧
    ((undo ((newNetwork netID st).2)).2).networkDict = st.networkDict ∧
    ((undo ((newNetwork netID st).2)).2).lastNetIndex = st.lastNetIndex + 1 ∧
    alookup ((newNetwork netID2 ((undo ((newNetwork netID st).2)).2)).2).networkDict
      (st.lastNetIndex + 1) = some (TNetwork.init netID2 [] [] []) := by
  have hone : (newNetwork netID st).2 =
      { st with errCode := 0, redoStack := [],
                netSetStack := st.networkDict :: st.netSetStack,
                networkDict := aupsert st.networkDict st.lastNetIndex
                  (TNetwork.init netID [] [] []),
                lastNetIndex := st.lastNetIndex + 1 } := by
    simp [newNetwork, netDict_any_id_false st.networkDict netID h1, pushUndoStack, hflag]
  have hundo : (undo ((newNetwork netID st).2)).1 = Except.ok () ∧
      (undo ((newNetwork netID st).2)).2 =
      { st with errCode := 0,
                redoStack := aupsert st.networkDict st.lastNetIndex
                  (TNetwork.init netID [] [] []) :: [],
                netSetStack := st.netSetStack,
                networkDict := st.networkDict,
                lastNetIndex := st.lastNetIndex + 1 } := by
    rw [hone]
    constructor <;> rfl
  refine ⟨?_, ?_, ?_, hundo.1, ?_, ?_, ?_⟩
  · intro s
    unfold undo
    cases hs : s.netSetStack <;> simp [hs]
  · rw [hone]
    simp [alookup_aupsert]
  · rw [hone]
  · rw [hundo.2]
  · rw [hundo.2]
  · rw [hundo.2]
    simp [newNetwork, netDict_any_id_false st.networkDict netID2 h2, pushUndoStack,
          hflag, alookup_aupsert]

/-- C10 witness: the scenario evaluated from the initial state with ids
"a" and "b". -/
theorem undo_preserves_lastNetIndex_no_reuse_witness :
    ((undo ((newNetwork "a" initSt).2)).2).lastNetIndex = initSt.lastNetIndex + 1 ∧
    alookup ((newNetwork "b" ((undo ((newNetwork "a" initSt).2)).2)).2).networkDict
      (initSt.lastNetIndex + 1) = some (TNetwork.init "b" [] [] []) := by
  have h := undo_preserves_lastNetIndex_no_reuse initSt "a" "b" rfl
    (by decide) (by decide)
  exact ⟨h.2.2.2.2.2.1, h.2.2.2.2.2.2⟩

/-- C5 (amended): for `addNode`, `setNodeID`, `createReaction`,
`setReactionID` and `addCompartment`, a proposed id equal to the id of
an existing same-kind entity in the same network makes the call fail
with `IdRepeat`, with the registry and the undo stack unchanged (no
entity created, no id changed, no snapshot pushed); `setCompartmentID`,
by contrast, performs no duplicate check at all: on any existing
compartment it succeeds unconditionally and installs the new id, even
when that id duplicates another compartment's. -/
theorem idRepeat_checks (st : GState) (neti : ℤ) (net : TNetwork)
    (hnet : alookup st.networkDict neti = some net) :
    (∀ nodeID x y w h fl, (∃ p ∈ net.nodes, p.2.id = nodeID) →
      (addNode neti nodeID x y w h fl st).1 = Except.error Err.idRepeat ∧
      ((addNode neti nodeID x y w h fl st).2).networkDict = st.networkDict ∧
      ((addNode neti nodeID x y w h fl st).2).netSetStack = st.netSetStack) ∧
    (∀ nodei node newID, alookup net.nodes nodei = some node →
      (∃ p ∈ net.nodes, p.2.id = newID) →
      (setNodeID neti nodei newID st).1 = Except.error Err.idRepeat ∧
      ((setNodeID neti nodei newID st).2).networkDict = st.networkDict ∧
      ((setNodeID neti nodei newID st).2).netSetStack = st.netSetStack) ∧
    (∀ reaID sources targets, sources ≠ [] → targets ≠ [] →
      (∃ p ∈ net.reactions, p.2.id = reaID) →
      (createReaction neti reaID sources targets st).1 = Except.error Err.idRepeat ∧
      ((createReaction neti reaID sources targets st).2).networkDict = st.networkDict ∧
      ((createReaction neti reaID sources targets st).2).netSetStack = st.netSetStack) ∧
    (∀ reai rea newID, alookup net.reactions reai = some rea →
      (∃ p ∈ net.reactions, p.2.id = newID) →
      (setReactionID neti reai newID st).1 = Except.error Err.idRepeat ∧
      ((setReactionID neti reai newID st).2).networkDict = st.networkDict ∧
      ((setReactionID neti reai newID st).2).netSetStack = st.netSetStack) ∧
    (∀ compID x y w h, 0 ≤ x → 0 ≤ y → 0 ≤ w → 0 ≤ h →
      (∃ p ∈ net.compartments, p.2.id = compID) →
      (addCompartment neti compID x y w h st).1 = Except.error Err.idRepeat ∧
      ((addCompartment neti compID x y w h st).2).networkDict = st.networkDict ∧
      ((addCompartment neti compID x y w h st).2).netSetStack = st.netSetStack) ∧
    (∀ compi c id, alookup net.compartments compi = some c →
      (setCompartmentID neti compi id st).1 = Except.ok () ∧
      (alookup ((setCompartmentID neti compi id st).2).networkDict neti).map
        (fun n => (alookup n.compartments compi).map TCompartment.id) =
        some (some id)) := by
  refine ⟨?_, ?_, ?_, ?_, ?_, ?_⟩
  · intro nodeID x y w h fl hex
    have hdup : (avalues net.nodes).any (fun node => decide (node.id = nodeID)) = true := by
      obtain ⟨p, hp, hid⟩ := hex
      exact List.any_eq_true.mpr ⟨p.2, List.mem_map_of_mem Prod.snd hp, by simp [hid]⟩
    simp [addNode, hnet, hdup]
  · intro nodei node newID hnode hex
    have hdup : (avalues net.nodes).any (fun n => decide (n.id = newID)) = true := by
      obtain ⟨p, hp, hid⟩ := hex
      exact List.any_eq_true.mpr ⟨p.2, List.mem_map_of_mem Prod.snd hp, by simp [hid]⟩
    simp [setNodeID, hnet, hnode, hdup]
  · intro reaID sources targets hs ht hex
    have hdup : (avalues net.reactions).any (fun r => decide (r.id = reaID)) = true := by
      obtain ⟨p, hp, hid⟩ := hex
      exact List.any_eq_true.mpr ⟨p.2, List.mem_map_of_mem Prod.snd hp, by simp [hid]⟩
    simp [createReaction, hnet, hdup, hs, ht]
  · intro reai rea newID hrea hex
    have hdup : (avalues net.reactions).any (fun r => decide (r.id = newID)) = true := by
      obtain ⟨p, hp, hid⟩ := hex
      exact List.any_eq_true.mpr ⟨p.2, List.mem_map_of_mem Prod.snd hp, by simp [hid]⟩
    simp [setReactionID, hnet, hrea, hdup]
  · intro compID x y w h hx hy hw hh hex
    have hdup : (avalues net.compartments).any (fun c => decide (compID = c.id)) = true := by
      obtain ⟨p, hp, hid⟩ := hex
      exact List.any_eq_true.mpr ⟨p.2, List.mem_map_of_mem Prod.snd hp, by simp [hid]⟩
    have hgeom : ¬ (x < 0 ∨ y < 0 ∨ w < 0 ∨ h < 0) := by
      push_neg
      exact ⟨hx, hy, hw, hh⟩
    simp [addCompartment, hnet, hdup, hgeom]
  · intro compi c id hc
    have hpush : ((pushUndoStack st).networkDict) = st.networkDict := by
      unfold pushUndoStack
      split <;> rfl
    constructor
    · simp [setCompartmentID, hpush, hnet, hc]
    · simp [setCompartmentID, hpush, hnet, hc, alookup_aupsert]

/-- The network used by the C5 witness: one node "X", one reaction "R",
two compartments "A" and "B". -/
def wNetC5 : TNetwork :=
  { id := "net"
    nodes := [(0, { id := "X", position := {}, rectSize := ⟨1, 1⟩, floating := true })]
    reactions := [(0, { id := "R" })]
    compartments := [(0, { id := "A", position := {}, rectSize := ⟨1, 1⟩ }),
                     (1, { id := "B", position := {}, rectSize := ⟨1, 1⟩ })]
    baseNodes := {0}
    srcMap := []
    destMap := []
    lastNodeIdx := 1
    lastReactionIdx := 1
    lastCompartmentIdx := 2 }

/-- Registry used by the C5 witness. -/
def stW5 : GState := { initSt with networkDict := [(0, wNetC5)] }

/-- C5 witness: each duplicate-id rejection and the unchecked
`setCompartmentID` rename, evaluated on `stW5`. -/
theorem idRepeat_checks_witness :
    (addNode 0 "X" 1 1 1 1 true stW5).1 = Except.error Err.idRepeat ∧
    (setNodeID 0 0 "X" stW5).1 = Except.error Err.idRepeat ∧
    (createReaction 0 "R" [0] [0] stW5).1 = Except.error Err.idRepeat ∧
    (setReactionID 0 0 "R" stW5).1 = Except.error Err.idRepeat ∧
    (addCompartment 0 "A" 1 1 1 1 stW5).1 = Except.error Err.idRepeat ∧
    (setCompartmentID 0 1 "A" stW5).1 = Except.ok () := by
  have h := idRepeat_checks stW5 0 wNetC5 (by decide)
  exact ⟨(h.1 "X" 1 1 1 1 true (by decide)).1,
         (h.2.1 0 { id := "X", position := {}, rectSize := ⟨1, 1⟩, floating := true }
            "X" (by decide) (by decide)).1,
         (h.2.2.1 "R" [0] [0] (by decide) (by decide) (by decide)).1,
         (h.2.2.2.1 0 { id := "R" } "R" (by decide) (by decide)).1,
         (h.2.2.2.2.1 "A" 1 1 1 1 (by norm_num) (by norm_num) (by norm_num)
            (by norm_num) (by decide)).1,
         (h.2.2.2.2.2 1 { id := "B", position := {}, rectSize := ⟨1, 1⟩ } "A"
            (by decide)).1⟩

/-- Source `_pushUndoStack` never changes the registry itself. -/
theorem pushUndoStack_networkDict (st : GState) :
    (pushUndoStack st).networkDict = st.networkDict := by
  unfold pushUndoStack
  split <;> rfl

/-- Source `_pushUndoStack` never changes the group flag. -/
theorem pushUndoStack_stackFlag (st : GState) :
    (pushUndoStack st).stackFlag = st.stackFlag := by
  unfold pushUndoStack
  split <;> rfl

/-- Inside an open group (`stackFlag = False`) `_pushUndoStack` is the
identity. -/
theorem pushUndoStack_of_flag_false (st : GState) (h : st.stackFlag = false) :
    pushUndoStack st = st := by
  unfold pushUndoStack
  rw [if_neg]
  simp [h]

/-- C6: for an existing node of an existing network, `deleteNode` fails
with `NodeNotFree` and leaves the registry (hence the node count)
unchanged exactly when the node's `srcMap` or `destMap` reaction set is
non-empty; when both are empty the call succeeds and the node is removed
from `nodes` and from whichever container holds it — `baseNodes` when its
`compi` is -1, otherwise its compartment's `node_indices`. -/
theorem deleteNode_succeeds_iff_free (st : GState) (neti nodei : ℤ)
    (net : TNetwork) (node : TNode)
    (hnet : alookup st.networkDict neti = some net)
    (hnode : alookup net.nodes nodei = some node) :
    (¬ (mapGetD net.srcMap nodei = ∅ ∧ mapGetD net.destMap nodei = ∅) →
      (deleteNode neti nodei st).1 = Except.error Err.nodeNotFree ∧
      ((deleteNode neti nodei st).2).networkDict = st.networkDict ∧
      ((deleteNode neti nodei st).2).netSetStack = st.netSetStack) ∧
    (mapGetD net.srcMap nodei = ∅ → mapGetD net.destMap nodei = ∅ →
      (node.compi = -1 → nodei ∈ net.baseNodes →
        (deleteNode neti nodei st).1 = Except.ok () ∧
        alookup ((deleteNode neti nodei st).2).networkDict neti =
          some { net with baseNodes := net.baseNodes.erase nodei,
                          nodes := aerase net.nodes nodei }) ∧
      (∀ c, node.compi ≠ -1 → alookup net.compartments node.compi = some c →
        nodei ∈ c.node_indices →
        (deleteNode neti nodei st).1 = Except.ok () ∧
        alookup ((deleteNode neti nodei st).2).networkDict neti =
          some { net with
                 compartments := aupsert net.compartments node.compi
                   ({ c with node_indices := c.node_indices.erase nodei })
                 nodes := aerase net.nodes nodei })) := by
  constructor
  · intro hbusy
    simp [deleteNode, hnet, hnode, hbusy]
  · intro hsrc hdst
    constructor
    · intro hcompi hbase
      constructor
      · simp [deleteNode, hnet, hnode, hsrc, hdst, hcompi, hbase]
      · simp [deleteNode, hnet, hnode, hsrc, hdst, hcompi, hbase,
              pushUndoStack_networkDict, alookup_aupsert]
    · intro c hcompi hc hmem
      constructor
      · simp [deleteNode, hnet, hnode, hsrc, hdst, hcompi, hc, hmem]
      · simp [deleteNode, hnet, hnode, hsrc, hdst, hcompi, hc, hmem,
              pushUndoStack_networkDict, alookup_aupsert]

/-- A network where node 0 is a reactant and node 1 a product of
reaction 0, used by the C6 witness. -/
def busyNet : TNetwork :=
  { id := "net"
    nodes := [(0, { id := "A", position := {}, rectSize := ⟨1, 1⟩, floating := true }),
              (1, { id := "B", position := {}, rectSize := ⟨1, 1⟩, floating := true })]
    reactions := [(0, { id := "r", reactants := [(0, { stoich := 1 })],
                        products := [(1, { stoich := 1 })] })]
    compartments := []
    baseNodes := {0, 1}
    srcMap := [(0, {0})]
    destMap := [(1, {0})]
    lastNodeIdx := 2
    lastReactionIdx := 1
    lastCompartmentIdx := 0 }

/-- Registry used by the busy half of the C6 witness. -/
def stBusy : GState := { initSt with networkDict := [(0, busyNet)] }

/-- C6 witness: deleting the reactant node 0 of `stBusy` fails with
`NodeNotFree` and changes nothing, while deleting the sole (free) node
of `stOneNode` succeeds and removes it from `nodes` and `baseNodes`. -/
theorem deleteNode_succeeds_iff_free_witness :
    ((deleteNode 0 0 stBusy).1 = Except.error Err.nodeNotFree ∧
     ((deleteNode 0 0 stBusy).2).networkDict = stBusy.networkDict ∧
     ((deleteNode 0 0 stBusy).2).netSetStack = stBusy.netSetStack) ∧
    ((deleteNode 0 0 stOneNode).1 = Except.ok () ∧
     alookup ((deleteNode 0 0 stOneNode).2).networkDict 0 =
       some { oneNodeNet with baseNodes := oneNodeNet.baseNodes.erase 0,
                              nodes := aerase oneNodeNet.nodes 0 }) := by
  have hbusy := deleteNode_succeeds_iff_free stBusy 0 0 busyNet
    { id := "A", position := {}, rectSize := ⟨1, 1⟩, floating := true }
    (by decide) (by decide)
  have hfree := deleteNode_succeeds_iff_free stOneNode 0 0 oneNodeNet
    { id := "A", position := {}, rectSize := ⟨1, 1⟩, floating := true }
    (by decide) (by decide)
  exact ⟨hbusy.1 (by decide), (hfree.2 (by decide) (by decide)).1 (by decide) (by decide)⟩

/-- Inside an open group every mutating operation leaves the undo stack
and the cleared flag untouched: the only path by which a mutating call
reaches the undo stack is `_pushUndoStack`, which is suppressed. -/
theorem runOp_grouped_frame (op : Op) (st : GState) (h : st.stackFlag = false) :
    (runOp op st).netSetStack = st.netSetStack ∧ (runOp op st).stackFlag = false := by
  cases op <;>
    simp only [runOp, addNode, deleteNode, setNodeID, setNodeCoordinate, setNodeSize,
               setNodeFloatingStatus, createReaction, deleteReaction, clearReactions,
               setReactionID, setRateLaw, addCompartment, deleteCompartment,
               setCompartmentOfNode, setCompartmentID, newNetwork, deleteNetwork,
               clearNetwork, clearNetworks, pushUndoStack, h] <;>
    (repeat' split) <;> simp_all

/-- The frame property of `runOp_grouped_frame`, extended to
sequences. -/
theorem runOps_grouped_frame (ops : List Op) (st : GState) (h : st.stackFlag = false) :
    (runOps ops st).netSetStack = st.netSetStack ∧ (runOps ops st).stackFlag = false := by
  induction ops generalizing st with
  | nil => exact ⟨rfl, h⟩
  | cons op rest ih =>
    have h1 := runOp_grouped_frame op st h
    have h2 := ih (runOp op st) h1.2
    exact ⟨h2.1.trans h1.1, h2.2⟩

/-- C1: wrapping any sequence of mutating Mutation API calls between
`startGroup()` and `endGroup()` pushes exactly one snapshot onto the
undo stack (the one pushed by `startGroup` itself), and a single
subsequent `undo()` succeeds and restores the network dictionary to its
pre-`startGroup` value, reverting all of the group's mutations at once
(per C10, snapshots capture the network dictionary; the `lastNetIndex`
counter is deliberately outside them). -/
theorem grouped_ops_one_snapshot_undo_restores (st0 : GState) (ops : List Op) :
    ((endGroup (runOps ops (startGroup st0))).netSetStack).length =
      st0.netSetStack.length + 1 ∧
    (undo (endGroup (runOps ops (startGroup st0)))).1 = Except.ok () ∧
    ((undo (endGroup (runOps ops (startGroup st0)))).2).networkDict =
      st0.networkDict ∧
    ((undo (endGroup (runOps ops (startGroup st0)))).2).netSetStack =
      st0.netSetStack := by
  have hstack : (endGroup (runOps ops (startGroup st0))).netSetStack =
      st0.networkDict :: st0.netSetStack := by
    have h := runOps_grouped_frame ops (startGroup st0) rfl
    simpa [endGroup, startGroup] using h.1
  refine ⟨by rw [hstack]; rfl, ?_, ?_, ?_⟩ <;>
    simp [undo, hstack]

/-!
C3 infrastructure: the full-scan characterization of `srcMap`/`destMap`
and the well-formedness facts (dict keys unique, reaction indices below
the `lastReactionIdx` counter) that hold in every reachable state and
that the incremental index maintenance relies on.
-/

/-- The set of reaction indices whose `role` endpoint map (`reactants`
or `products`) contains node `n` — what a full scan of `reactions`
produces. -/
def scanRole (role : TReaction → List (ℤ × TSpeciesNode))
    (reactions : List (ℤ × TReaction)) (n : ℤ) : Finset ℤ :=
  ((reactions.filter (fun p => acontains (role p.2) n)).map Prod.fst).toFinset

/-- Full scan for reactants (what `srcMap` must equal). -/
def scanSrc (reactions : List (ℤ × TReaction)) (n : ℤ) : Finset ℤ :=
  scanRole (fun r => r.reactants) reactions n

/-- Full scan for products (what `destMap` must equal). -/
def scanDest (reactions : List (ℤ × TReaction)) (n : ℤ) : Finset ℤ :=
  scanRole (fun r => r.products) reactions n

/-- The C3 invariant: for every node index, the derived indices hold
exactly the reaction sets a full scan of `reactions` would produce. -/
def mapsConsistent (net : TNetwork) : Prop :=
  ∀ n : ℤ, mapGetD net.srcMap n = scanSrc net.reactions n ∧
           mapGetD net.destMap n = scanDest net.reactions n

/-- Well-formedness of a network, true in every reachable state: the
reactions dict and each reaction's endpoint dicts have unique keys
(Python dicts), and every reaction index is below the monotone
`lastReactionIdx` counter. -/
def netWF (net : TNetwork) : Prop :=
  keysNodup net.reactions ∧
  (∀ p ∈ net.reactions, keysNodup p.2.reactants ∧ keysNodup p.2.products) ∧
  (∀ p ∈ net.reactions, p.1 < net.lastReactionIdx)

/-- The combined per-network invariant. -/
def netOK (net : TNetwork) : Prop := netWF net ∧ mapsConsistent net

/-- The registry-wide invariant. -/
def stateOK (st : GState) : Prop := ∀ p ∈ st.networkDict, netOK p.2

theorem acontains_keys (m : List (ℤ × α)) (k : ℤ) :
    acontains m k = true ↔ k ∈ m.map Prod.fst :=
  (acontains_true_iff m k).trans (alookup_isSome_iff_mem_keys m k)

theorem mem_aupsert (m : List (ℤ × α)) (k : ℤ) (v : α) (p : ℤ × α)
    (hp : p ∈ aupsert m k v) : p ∈ m ∨ p = (k, v) := by
  induction m with
  | nil =>
    simp [aupsert] at hp
    right; exact hp
  | cons q rest ih =>
    obtain ⟨qk, qv⟩ := q
    by_cases hqk : qk = k
    · simp only [aupsert, if_pos hqk, List.mem_cons] at hp
      rcases hp with hp | hp
      · right; exact hp
      · left; exact List.mem_cons_of_mem _ hp
    · simp only [aupsert, if_neg hqk, List.mem_cons] at hp
      rcases hp with hp | hp
      · left; simp [hp]
      · rcases ih hp with h1 | h2
        · left; exact List.mem_cons_of_mem _ h1
        · right; exact h2

theorem mem_aerase_iff (m : List (ℤ × α)) (k : ℤ) (p : ℤ × α) :
    p ∈ aerase m k ↔ p ∈ m ∧ p.1 ≠ k := by
  induction m with
  | nil => simp [aerase]
  | cons q rest ih =>
    obtain ⟨qk, qv⟩ := q
    by_cases hqk : qk = k
    · simp only [aerase, if_pos hqk, ih, List.mem_cons]
      constructor
      · rintro ⟨hp, hne⟩
        exact ⟨Or.inr hp, hne⟩
      · rintro ⟨hp | hp, hne⟩
        · rw [hp] at hne
          simp [hqk] at hne
        · exact ⟨hp, hne⟩
    · simp only [aerase, if_neg hqk, List.mem_cons, ih]
      constructor
      · rintro (hp | ⟨hp, hne⟩)
        · refine ⟨Or.inl hp, ?_⟩
          rw [hp]
          exact hqk
        · exact ⟨Or.inr hp, hne⟩
      · rintro ⟨hp | hp, hne⟩
        · exact Or.inl hp
        · exact Or.inr ⟨hp, hne⟩

theorem aupsert_of_fresh (m : List (ℤ × α)) (k : ℤ) (v : α)
    (h : ∀ p ∈ m, p.1 ≠ k) : aupsert m k v = m ++ [(k, v)] := by
  induction m with
  | nil => simp [aupsert]
  | cons q rest ih =>
    obtain ⟨qk, qv⟩ := q
    have hqk : qk ≠ k := h (qk, qv) (List.mem_cons_self _ _)
    simp only [aupsert, if_neg hqk, List.cons_append, List.cons.injEq, true_and]
    exact ih (fun p hp => h p (List.mem_cons_of_mem _ hp))

theorem mem_scanRole (role : TReaction → List (ℤ × TSpeciesNode))
    (reactions : List (ℤ × TReaction)) (r n : ℤ) :
    r ∈ scanRole role reactions n ↔
      ∃ rea, (r, rea) ∈ reactions ∧ acontains (role rea) n = true := by
  unfold scanRole
  rw [List.mem_toFinset]
  constructor
  · intro hmem
    rcases List.mem_map.mp hmem with ⟨p, hp, hfst⟩
    rcases List.mem_filter.mp hp with ⟨hpm, hpred⟩
    refine ⟨p.2, ?_, hpred⟩
    rw [← hfst]
    simpa using hpm
  · rintro ⟨rea, hmem, hpred⟩
    exact List.mem_map.mpr ⟨(r, rea), List.mem_filter.mpr ⟨hmem, hpred⟩, rfl⟩

theorem scanRole_append_single (role : TReaction → List (ℤ × TSpeciesNode))
    (reactions : List (ℤ × TReaction)) (L : ℤ) (v : TReaction) (n : ℤ) :
    scanRole role (reactions ++ [(L, v)]) n =
      if acontains (role v) n = true then insert L (scanRole role reactions n)
      else scanRole role reactions n := by
  unfold scanRole
  rw [List.filter_append, List.map_append, List.toFinset_append]
  by_cases hc : acontains (role v) n = true
  · rw [if_pos hc]
    simp only [List.filter_cons, hc]
    simp [Finset.insert_eq]
    exact Finset.union_comm _ _
  · rw [if_neg hc]
    simp only [List.filter_cons]
    simp [hc]

theorem scanRole_aerase (role : TReaction → List (ℤ × TSpeciesNode))
    (reactions : List (ℤ × TReaction)) (r0 n : ℤ) :
    scanRole role (aerase reactions r0) n = (scanRole role reactions n).erase r0 := by
  ext r
  rw [mem_scanRole, Finset.mem_erase, mem_scanRole]
  constructor
  · rintro ⟨rea, hmem, hpred⟩
    rw [mem_aerase_iff] at hmem
    exact ⟨hmem.2, rea, hmem.1, hpred⟩
  · rintro ⟨hne, rea, hmem, hpred⟩
    exact ⟨rea, (mem_aerase_iff _ _ _).mpr ⟨hmem, hne⟩, hpred⟩

theorem mapGetD_addToMap (m : List (ℤ × Finset ℤ)) (keys : List ℤ) (r n : ℤ) :
    mapGetD (addToMap m keys r) n =
      if n ∈ keys then insert r (mapGetD m n) else mapGetD m n := by
  induction keys generalizing m with
  | nil => simp [addToMap]
  | cons k ks ih =>
    have hstep : addToMap m (k :: ks) r =
        addToMap (aupsert m k (insert r (mapGetD m k))) ks r := rfl
    rw [hstep, ih]
    by_cases hks : n ∈ ks
    · rw [if_pos hks, if_pos (List.mem_cons_of_mem _ hks)]
      rw [mapGetD_aupsert]
      by_cases hkn : k = n
      · rw [if_pos hkn, hkn]
        simp
      · rw [if_neg hkn]
    · rw [if_neg hks, mapGetD_aupsert]
      by_cases hkn : k = n
      · rw [if_pos hkn, if_pos (by rw [← hkn]; exact List.mem_cons_self _ _)]
        rw [hkn]
      · have hnot : n ∉ k :: ks := by
          intro hmem
          rcases List.mem_cons.mp hmem with h | h
          · exact hkn h.symm
          · exact hks h
        rw [if_neg hkn, if_neg hnot]

theorem removeFromMap_spec (r : ℤ) (keys : List ℤ) (m : List (ℤ × Finset ℤ))
    (hnd : keys.Nodup) (hall : ∀ k ∈ keys, r ∈ mapGetD m k) :
    (removeFromMap r keys m).1 = Except.ok () ∧
    ∀ n, mapGetD (removeFromMap r keys m).2 n =
      if n ∈ keys then (mapGetD m n).erase r else mapGetD m n := by
  induction keys generalizing m with
  | nil =>
    refine ⟨rfl, fun n => ?_⟩
    simp [removeFromMap]
  | cons k ks ih =>
    have hk : r ∈ mapGetD m k := hall k (List.mem_cons_self _ _)
    have hred : removeFromMap r (k :: ks) m =
        removeFromMap r ks (aupsert m k ((mapGetD m k).erase r)) := by
      show (if r ∈ mapGetD m k then
              removeFromMap r ks (aupsert m k ((mapGetD m k).erase r))
            else (Except.error Err.keyError, m)) = _
      rw [if_pos hk]
    simp only [List.nodup_cons] at hnd
    have hall' : ∀ k' ∈ ks, r ∈ mapGetD (aupsert m k ((mapGetD m k).erase r)) k' := by
      intro k' hk'
      rw [mapGetD_aupsert, if_neg (fun he => hnd.1 (by rw [he]; exact hk'))]
      exact hall k' (List.mem_cons_of_mem _ hk')
    obtain ⟨hok, hpt⟩ := ih (aupsert m k ((mapGetD m k).erase r)) hnd.2 hall'
    rw [hred]
    refine ⟨hok, fun n => ?_⟩
    rw [hpt n, mapGetD_aupsert]
    by_cases hks : n ∈ ks
    · rw [if_pos hks, if_pos (List.mem_cons_of_mem _ hks),
          if_neg (fun he => hnd.1 (by rw [he]; exact hks))]
    · rw [if_neg hks]
      by_cases hkn : k = n
      · rw [if_pos hkn, if_pos (by rw [← hkn]; exact List.mem_cons_self _ _), hkn]
      · have hnot : n ∉ k :: ks := by
          intro hmem
          rcases List.mem_cons.mp hmem with h | h
          · exact hkn h.symm
          · exact hks h
        rw [if_neg hkn, if_neg hnot]

theorem keysNodup_foldl_aupsert (l : List ℤ) (v : TSpeciesNode)
    (m : List (ℤ × TSpeciesNode)) (h : keysNodup m) :
    keysNodup (l.foldl (fun m i => aupsert m i v) m) := by
  induction l generalizing m with
  | nil => exact h
  | cons k ks ih => exact ih _ (keysNodup_aupsert m k v h)

/-- A network update that leaves `reactions`, `srcMap`, `destMap` and
`lastReactionIdx` untouched preserves `netOK`. -/
theorem netOK_of_fields (net net' : TNetwork)
    (hr : net'.reactions = net.reactions) (hs : net'.srcMap = net.srcMap)
    (hd : net'.destMap = net.destMap) (hl : net'.lastReactionIdx = net.lastReactionIdx)
    (h : netOK net) : netOK net' := by
  unfold netOK netWF mapsConsistent at h ⊢
  rw [hr, hs, hd, hl]
  exact h

/-- A freshly constructed empty network satisfies the invariant. -/
theorem netOK_empty (id : String) : netOK (TNetwork.init id [] [] []) := by
  refine ⟨⟨?_, ?_, ?_⟩, ?_⟩
  · simp [TNetwork.init, keysNodup]
  · intro p hp
    simp [TNetwork.init] at hp
  · intro p hp
    simp [TNetwork.init] at hp
  · intro n
    constructor <;>
      simp [TNetwork.init, mapGetD, alookup, scanSrc, scanDest, scanRole]

/-- A network with `reactions`, `srcMap` and `destMap` all cleared
satisfies the invariant (the `clearReactions` result). -/
theorem netOK_cleared (net : TNetwork) :
    netOK { net with reactions := ([] : List (ℤ × TReaction)),
                     srcMap := ([] : List (ℤ × Finset ℤ)),
                     destMap := ([] : List (ℤ × Finset ℤ)) } := by
  refine ⟨⟨?_, ?_, ?_⟩, ?_⟩
  · simp [keysNodup]
  · intro p hp
    simp at hp
  · intro p hp
    simp at hp
  · intro n
    constructor <;> simp [mapGetD, alookup, scanSrc, scanDest, scanRole]

/-- Source `TNetwork.addReaction` preserves the invariant when the new
reaction's endpoint dicts have unique keys. -/
theorem netOK_addReaction (net : TNetwork) (rea : TReaction)
    (h : netOK net) (hre : keysNodup rea.reactants) (hpr : keysNodup rea.products) :
    netOK (net.addReaction rea) := by
  obtain ⟨⟨hnd, hmem, hbound⟩, hcons⟩ := h
  have hfresh : ∀ p ∈ net.reactions, p.1 ≠ net.lastReactionIdx :=
    fun p hp => ne_of_lt (hbound p hp)
  have happ : aupsert net.reactions net.lastReactionIdx rea =
      net.reactions ++ [(net.lastReactionIdx, rea)] :=
    aupsert_of_fresh _ _ _ hfresh
  constructor
  · refine ⟨keysNodup_aupsert _ _ _ hnd, ?_, ?_⟩
    · intro p hp
      rcases mem_aupsert _ _ _ _ hp with h1 | h2
      · exact hmem p h1
      · rw [h2]
        exact ⟨hre, hpr⟩
    · intro p hp
      rcases mem_aupsert _ _ _ _ hp with h1 | h2
      · exact lt_trans (hbound p h1) (by simp [TNetwork.addReaction])
      · rw [h2]
        simp [TNetwork.addReaction]
  · intro n
    constructor
    · show mapGetD (addToMap net.srcMap (rea.reactants.map Prod.fst) net.lastReactionIdx) n = _
      rw [mapGetD_addToMap]
      show _ = scanSrc (aupsert net.reactions net.lastReactionIdx rea) n
      unfold scanSrc
      rw [happ, scanRole_append_single]
      by_cases hn : n ∈ rea.reactants.map Prod.fst
      · rw [if_pos hn, if_pos ((acontains_keys _ _).mpr hn), (hcons n).1]
        rfl
      · rw [if_neg hn, if_neg (fun hc => hn ((acontains_keys _ _).mp hc)), (hcons n).1]
        rfl
    · show mapGetD (addToMap net.destMap (rea.products.map Prod.fst) net.lastReactionIdx) n = _
      rw [mapGetD_addToMap]
      show _ = scanDest (aupsert net.reactions net.lastReactionIdx rea) n
      unfold scanDest
      rw [happ, scanRole_append_single]
      by_cases hn : n ∈ rea.products.map Prod.fst
      · rw [if_pos hn, if_pos ((acontains_keys _ _).mpr hn), (hcons n).2]
        rfl
      · rw [if_neg hn, if_neg (fun hc => hn ((acontains_keys _ _).mp hc)), (hcons n).2]
        rfl

/-- The `deleteReaction` index maintenance: under the invariant, both
removal loops succeed, and the network with the reaction erased and the
loops' resulting maps satisfies the invariant again. -/
theorem deleteReaction_maps (net : TNetwork) (reai : ℤ) (rea : TReaction)
    (h : netOK net) (halook : alookup net.reactions reai = some rea) :
    (removeFromMap reai (rea.reactants.map Prod.fst) net.srcMap).1 = Except.ok () ∧
    (removeFromMap reai (rea.products.map Prod.fst) net.destMap).1 = Except.ok () ∧
    netOK { net with
            srcMap := (removeFromMap reai (rea.reactants.map Prod.fst) net.srcMap).2,
            destMap := (removeFromMap reai (rea.products.map Prod.fst) net.destMap).2,
            reactions := aerase net.reactions reai } := by
  obtain ⟨⟨hnd, hmem, hbound⟩, hcons⟩ := h
  have hmemr : (reai, rea) ∈ net.reactions := alookup_mem _ _ _ halook
  obtain ⟨hndr, hndp⟩ := hmem _ hmemr
  have hall_s : ∀ k ∈ rea.reactants.map Prod.fst, reai ∈ mapGetD net.srcMap k := by
    intro k hk
    rw [(hcons k).1]
    exact (mem_scanRole _ _ _ _).mpr ⟨rea, hmemr, (acontains_keys _ _).mpr hk⟩
  have hall_d : ∀ k ∈ rea.products.map Prod.fst, reai ∈ mapGetD net.destMap k := by
    intro k hk
    rw [(hcons k).2]
    exact (mem_scanRole _ _ _ _).mpr ⟨rea, hmemr, (acontains_keys _ _).mpr hk⟩
  obtain ⟨hok_s, hpt_s⟩ := removeFromMap_spec reai _ net.srcMap hndr hall_s
  obtain ⟨hok_d, hpt_d⟩ := removeFromMap_spec reai _ net.destMap hndp hall_d
  refine ⟨hok_s, hok_d, ⟨keysNodup_aerase _ _ hnd, ?_, ?_⟩, ?_⟩
  · intro p hp
    exact hmem p ((mem_aerase_iff _ _ _).mp hp).1
  · intro p hp
    exact hbound p ((mem_aerase_iff _ _ _).mp hp).1
  · intro n
    constructor
    · show mapGetD (removeFromMap reai (rea.reactants.map Prod.fst) net.srcMap).2 n = _
      rw [hpt_s n]
      show _ = scanSrc (aerase net.reactions reai) n
      unfold scanSrc
      rw [scanRole_aerase]
      by_cases hn : n ∈ rea.reactants.map Prod.fst
      · rw [if_pos hn, (hcons n).1]
        rfl
      · rw [if_neg hn, (hcons n).1]
        have hnotin : reai ∉ scanRole (fun r => r.reactants) net.reactions n := by
          intro hcon
          obtain ⟨rea', hmem', hcont⟩ := (mem_scanRole _ _ _ _).mp hcon
          have halook' : alookup net.reactions reai = some rea' :=
            mem_alookup_of_nodup _ (reai, rea') hnd hmem'
          rw [halook] at halook'
          injection halook' with he
          rw [← he] at hcont
          exact hn ((acontains_keys _ _).mp hcont)
        exact (Finset.erase_eq_of_not_mem hnotin).symm
    · show mapGetD (removeFromMap reai (rea.products.map Prod.fst) net.destMap).2 n = _
      rw [hpt_d n]
      show _ = scanDest (aerase net.reactions reai) n
      unfold scanDest
      rw [scanRole_aerase]
      by_cases hn : n ∈ rea.products.map Prod.fst
      · rw [if_pos hn, (hcons n).2]
        rfl
      · rw [if_neg hn, (hcons n).2]
        have hnotin : reai ∉ scanRole (fun r => r.products) net.reactions n := by
          intro hcon
          obtain ⟨rea', hmem', hcont⟩ := (mem_scanRole _ _ _ _).mp hcon
          have halook' : alookup net.reactions reai = some rea' :=
            mem_alookup_of_nodup _ (reai, rea') hnd hmem'
          rw [halook] at halook'
          injection halook' with he
          rw [← he] at hcont
          exact hn ((acontains_keys _ _).mp hcont)
        exact (Finset.erase_eq_of_not_mem hnotin).symm

/-- The `deleteCompartment` node-relocation loop touches only `nodes`
and `baseNodes`. -/
theorem moveFold_fields (l : List ℤ) (acc : TNetwork) :
    (l.foldl moveNodeToBase acc).reactions = acc.reactions ∧
    (l.foldl moveNodeToBase acc).srcMap = acc.srcMap ∧
    (l.foldl moveNodeToBase acc).destMap = acc.destMap ∧
    (l.foldl moveNodeToBase acc).lastReactionIdx = acc.lastReactionIdx := by
  induction l generalizing acc with
  | nil => exact ⟨rfl, rfl, rfl, rfl⟩
  | cons k ks ih =>
    have hstep : (moveNodeToBase acc k).reactions = acc.reactions ∧
        (moveNodeToBase acc k).srcMap = acc.srcMap ∧
        (moveNodeToBase acc k).destMap = acc.destMap ∧
        (moveNodeToBase acc k).lastReactionIdx = acc.lastReactionIdx := by
      unfold moveNodeToBase
      cases alookup acc.nodes k <;> exact ⟨rfl, rfl, rfl, rfl⟩
    obtain ⟨h1, h2, h3, h4⟩ := ih (moveNodeToBase acc k)
    obtain ⟨g1, g2, g3, g4⟩ := hstep
    exact ⟨h1.trans g1, h2.trans g2, h3.trans g3, h4.trans g4⟩

/-- Inserting a network that satisfies the invariant into an
invariant-respecting registry keeps every entry invariant. -/
theorem netOK_entries_aupsert (dict : List (ℤ × TNetwork)) (k : ℤ) (v : TNetwork)
    (h : ∀ p ∈ dict, netOK p.2) (hv : netOK v) :
    ∀ p ∈ aupsert dict k v, netOK p.2 := by
  intro p hp
  rcases mem_aupsert _ _ _ _ hp with h1 | h2
  · exact h p h1
  · rw [h2]
    exact hv

/-- Deleting a registry entry keeps every remaining entry invariant. -/
theorem netOK_entries_aerase (dict : List (ℤ × TNetwork)) (k : ℤ)
    (h : ∀ p ∈ dict, netOK p.2) :
    ∀ p ∈ aerase dict k, netOK p.2 :=
  fun p hp => h p ((mem_aerase_iff _ _ _).mp hp).1

theorem mem_aupsert_iff (m : List (ℤ × α)) (k : ℤ) (v : α) (p : ℤ × α)
    (hnd : keysNodup m) :
    p ∈ aupsert m k v ↔ (p ∈ m ∧ p.1 ≠ k) ∨ p = (k, v) := by
  induction m with
  | nil => simp [aupsert]
  | cons q rest ih =>
    obtain ⟨qk, qv⟩ := q
    unfold keysNodup at hnd
    simp only [List.map_cons, List.nodup_cons] at hnd
    by_cases hqk : qk = k
    · simp only [aupsert, if_pos hqk, List.mem_cons]
      constructor
      · rintro (hp | hp)
        · right; exact hp
        · left
          refine ⟨Or.inr hp, ?_⟩
          intro hc
          apply hnd.1
          rw [hqk, ← hc]
          exact List.mem_map_of_mem Prod.fst hp
      · rintro (⟨hp | hp, hne⟩ | hp)
        · exfalso
          apply hne
          rw [hp, hqk]
        · right; exact hp
        · left; exact hp
    · simp only [aupsert, if_neg hqk, List.mem_cons, ih hnd.2]
      constructor
      · rintro (hp | ⟨hp, hne⟩ | hp)
        · left
          refine ⟨Or.inl hp, ?_⟩
          rw [hp]
          exact hqk
        · exact Or.inl ⟨Or.inr hp, hne⟩
        · right; exact hp
      · rintro (⟨hp | hp, hne⟩ | hp)
        · left; exact hp
        · right; left; exact ⟨hp, hne⟩
        · right; right; exact hp

theorem scanRole_aupsert_same (role : TReaction → List (ℤ × TSpeciesNode))
    (m : List (ℤ × TReaction)) (k : ℤ) (r v : TReaction) (n : ℤ)
    (hnd : keysNodup m) (halook : alookup m k = some r)
    (hcont : acontains (role v) n = acontains (role r) n) :
    scanRole role (aupsert m k v) n = scanRole role m n := by
  ext r0
  rw [mem_scanRole, mem_scanRole]
  constructor
  · rintro ⟨rea, hmem, hpred⟩
    rcases (mem_aupsert_iff m k v (r0, rea) hnd).mp hmem with ⟨hp, _⟩ | hp
    · exact ⟨rea, hp, hpred⟩
    · injection hp with he1 he2
      refine ⟨r, ?_, ?_⟩
      · rw [he1]
        exact alookup_mem _ _ _ halook
      · rw [← hcont, ← he2]
        exact hpred
  · rintro ⟨rea, hmem, hpred⟩
    by_cases hk : r0 = k
    · have : alookup m r0 = some rea := mem_alookup_of_nodup _ (r0, rea) hnd hmem
      rw [hk, halook] at this
      injection this with he
      refine ⟨v, ?_, ?_⟩
      · rw [hk]
        exact (mem_aupsert_iff m k v (k, v) hnd).mpr (Or.inr rfl)
      · rw [hcont, he]
        exact hpred
    · exact ⟨rea, (mem_aupsert_iff m k v (r0, rea) hnd).mpr (Or.inl ⟨hmem, hk⟩), hpred⟩

/-- Replacing a reaction by one with identical `reactants` and
`products` (as `setReactionID`/`setRateLaw` do) preserves the
invariant. -/
theorem netOK_updateReaction (net : TNetwork) (reai : ℤ) (rea v : TReaction)
    (h : netOK net) (halook : alookup net.reactions reai = some rea)
    (hre : v.reactants = rea.reactants) (hpr : v.products = rea.products) :
    netOK { net with reactions := aupsert net.reactions reai v } := by
  obtain ⟨⟨hnd, hmem, hbound⟩, hcons⟩ := h
  have hmemr : (reai, rea) ∈ net.reactions := alookup_mem _ _ _ halook
  refine ⟨⟨keysNodup_aupsert _ _ _ hnd, ?_, ?_⟩, ?_⟩
  · intro p hp
    rcases mem_aupsert _ _ _ _ hp with h1 | h2
    · exact hmem p h1
    · rw [h2]
      obtain ⟨h3, h4⟩ := hmem _ hmemr
      rw [keysNodup, hre, keysNodup, hpr]
      exact ⟨h3, h4⟩
  · intro p hp
    rcases mem_aupsert _ _ _ _ hp with h1 | h2
    · exact hbound p h1
    · rw [h2]
      exact hbound (reai, rea) hmemr
  · intro n
    constructor
    · show mapGetD net.srcMap n = scanSrc (aupsert net.reactions reai v) n
      unfold scanSrc
      rw [scanRole_aupsert_same (fun r => r.reactants) _ reai rea v n hnd halook
          (by show acontains v.reactants n = acontains rea.reactants n; rw [hre])]
      exact (hcons n).1
    · show mapGetD net.destMap n = scanDest (aupsert net.reactions reai v) n
      unfold scanDest
      rw [scanRole_aupsert_same (fun r => r.products) _ reai rea v n hnd halook
          (by show acontains v.products n = acontains rea.products n; rw [hpr])]
      exact (hcons n).2

/-- Source `_pushUndoStack` preserves the registry invariant. -/
theorem stateOK_pushUndoStack (st : GState) (h : stateOK st) :
    stateOK (pushUndoStack st) := by
  intro p hp
  rw [pushUndoStack_networkDict] at hp
  exact h p hp

/-- Every embedded mutating operation preserves the registry-wide
invariant: well-formed dicts and `srcMap`/`destMap` equal to the full
scan of `reactions`, for every network in the registry. -/
theorem stateOK_runOp (op : Op) (st : GState) (h : stateOK st) :
    stateOK (runOp op st) := by
  cases op with
  | addNode neti nodeID x y w hh fl =>
    show stateOK (addNode neti nodeID x y w hh fl st).2
    unfold addNode
    dsimp only
    cases hnet : alookup st.networkDict neti with
    | none => exact h
    | some n =>
      have hOK := h (neti, n) (alookup_mem _ _ _ hnet)
      dsimp only
      repeat' split
      all_goals first
        | exact h
        | exact netOK_entries_aupsert _ _ _ (stateOK_pushUndoStack _ h)
            (netOK_of_fields _ _ rfl rfl rfl rfl hOK)
  | deleteNode neti nodei =>
    show stateOK (deleteNode neti nodei st).2
    unfold deleteNode
    dsimp only
    cases hnet : alookup st.networkDict neti with
    | none => exact h
    | some n =>
      have hOK := h (neti, n) (alookup_mem _ _ _ hnet)
      dsimp only
      cases hnode : alookup n.nodes nodei with
      | none => exact h
      | some node =>
        dsimp only
        repeat' split
        all_goals first
          | exact h
          | exact netOK_entries_aupsert _ _ _
              (netOK_entries_aupsert _ _ _ (stateOK_pushUndoStack _ h) hOK)
              (netOK_of_fields _ _ rfl rfl rfl rfl hOK)
          | exact netOK_entries_aupsert _ _ _ (stateOK_pushUndoStack _ h) hOK
  | setNodeID neti nodei newID =>
    show stateOK (setNodeID neti nodei newID st).2
    unfold setNodeID
    dsimp only
    cases hnet : alookup st.networkDict neti with
    | none => exact h
    | some n =>
      have hOK := h (neti, n) (alookup_mem _ _ _ hnet)
      dsimp only
      cases hnode : alookup n.nodes nodei with
      | none => exact h
      | some node =>
        dsimp only
        repeat' split
        all_goals first
          | exact h
          | exact netOK_entries_aupsert _ _ _ (stateOK_pushUndoStack _ h)
              (netOK_of_fields _ _ rfl rfl rfl rfl hOK)
  | setNodeCoordinate neti nodei x y an =>
    show stateOK (setNodeCoordinate neti nodei x y an st).2
    unfold setNodeCoordinate
    dsimp only
    cases hnet : alookup st.networkDict neti with
    | none => exact h
    | some n =>
      have hOK := h (neti, n) (alookup_mem _ _ _ hnet)
      dsimp only
      cases hnode : alookup n.nodes nodei with
      | none => exact h
      | some node =>
        dsimp only
        repeat' split
        all_goals first
          | exact h
          | exact netOK_entries_aupsert _ _ _ (stateOK_pushUndoStack _ h)
              (netOK_of_fields _ _ rfl rfl rfl rfl hOK)
  | setNodeSize neti nodei w hh =>
    show stateOK (setNodeSize neti nodei w hh st).2
    unfold setNodeSize
    dsimp only
    cases hnet : alookup st.networkDict neti with
    | none => exact h
    | some n =>
      have hOK := h (neti, n) (alookup_mem _ _ _ hnet)
      dsimp only
      cases hnode : alookup n.nodes nodei with
      | none => exact h
      | some node =>
        dsimp only
        repeat' split
        all_goals first
          | exact h
          | exact netOK_entries_aupsert _ _ _ (stateOK_pushUndoStack _ h)
              (netOK_of_fields _ _ rfl rfl rfl rfl hOK)
  | setNodeFloatingStatus neti nodei b =>
    show stateOK (setNodeFloatingStatus neti nodei b st).2
    unfold setNodeFloatingStatus
    dsimp only
    cases hnet : alookup st.networkDict neti with
    | none => exact h
    | some n =>
      have hOK := h (neti, n) (alookup_mem _ _ _ hnet)
      dsimp only
      cases hnode : alookup n.nodes nodei with
      | none => exact h
      | some node =>
        dsimp only
        exact netOK_entries_aupsert _ _ _ (stateOK_pushUndoStack _ h)
          (netOK_of_fields _ _ rfl rfl rfl rfl hOK)
  | createReaction neti reaID sources targets =>
    show stateOK (createReaction neti reaID sources targets st).2
    unfold createReaction
    dsimp only
    by_cases hempty : sources = [] ∨ targets = []
    · rw [if_pos hempty]
      exact h
    · rw [if_neg hempty]
      cases hnet : alookup st.networkDict neti with
      | none => exact h
      | some net =>
        have hOK := h (neti, net) (alookup_mem _ _ _ hnet)
        dsimp only
        repeat' split
        all_goals first
          | exact h
          | exact netOK_entries_aupsert _ _ _ (stateOK_pushUndoStack _ h)
              (netOK_addReaction net _ hOK
                (keysNodup_foldl_aupsert sources _ [] (by simp [keysNodup]))
                (keysNodup_foldl_aupsert targets _ [] (by simp [keysNodup])))
  | deleteReaction neti reai =>
    show stateOK (deleteReaction neti reai st).2
    unfold deleteReaction
    dsimp only
    cases hnet : alookup st.networkDict neti with
    | none => exact h
    | some net =>
      have hOK := h (neti, net) (alookup_mem _ _ _ hnet)
      dsimp only
      cases hrea : alookup net.reactions reai with
      | none => exact h
      | some rea =>
        dsimp only
        obtain ⟨hok_s, hok_d, hnet'⟩ := deleteReaction_maps net reai rea hOK hrea
        cases hres : removeFromMap reai (rea.reactants.map Prod.fst) net.srcMap with
        | mk res1 m1 =>
          rw [hres] at hok_s hnet'
          dsimp only at hok_s hnet'
          cases res1 with
          | error e => exact absurd hok_s (by simp)
          | ok u =>
            dsimp only
            cases hres2 : removeFromMap reai (rea.products.map Prod.fst) net.destMap with
            | mk res2 m2 =>
              rw [hres2] at hok_d hnet'
              dsimp only at hok_d hnet'
              cases res2 with
              | error e => exact absurd hok_d (by simp)
              | ok u2 =>
                dsimp only
                exact netOK_entries_aupsert _ _ _ (stateOK_pushUndoStack _ h) hnet'
  | clearReactions neti =>
    show stateOK (clearReactions neti st).2
    unfold clearReactions
    dsimp only
    cases hnet : alookup st.networkDict neti with
    | none => exact h
    | some net =>
      dsimp only
      exact netOK_entries_aupsert _ _ _ (stateOK_pushUndoStack _ h) (netOK_cleared net)
  | setReactionID neti reai newID =>
    show stateOK (setReactionID neti reai newID st).2
    unfold setReactionID
    dsimp only
    cases hnet : alookup st.networkDict neti with
    | none => exact h
    | some net =>
      have hOK := h (neti, net) (alookup_mem _ _ _ hnet)
      dsimp only
      cases hrea : alookup net.reactions reai with
      | none => exact h
      | some rea =>
        dsimp only
        repeat' split
        all_goals first
          | exact h
          | exact netOK_entries_aupsert _ _ _ (stateOK_pushUndoStack _ h)
              (netOK_updateReaction net reai rea _ hOK hrea rfl rfl)
  | setRateLaw neti reai rl =>
    show stateOK (setRateLaw neti reai rl st).2
    unfold setRateLaw
    dsimp only
    cases hnet : alookup st.networkDict neti with
    | none => exact h
    | some net =>
      have hOK := h (neti, net) (alookup_mem _ _ _ hnet)
      dsimp only
      cases hrea : alookup net.reactions reai with
      | none => exact h
      | some rea =>
        dsimp only
        exact netOK_entries_aupsert _ _ _ (stateOK_pushUndoStack _ h)
          (netOK_updateReaction net reai rea _ hOK hrea rfl rfl)
  | addCompartment neti compID x y w hh =>
    show stateOK (addCompartment neti compID x y w hh st).2
    unfold addCompartment
    dsimp only
    by_cases hgeom : x < 0 ∨ y < 0 ∨ w < 0 ∨ hh < 0
    · rw [if_pos hgeom]
      exact h
    · rw [if_neg hgeom]
      cases hnet : alookup st.networkDict neti with
      | none => exact h
      | some net =>
        have hOK := h (neti, net) (alookup_mem _ _ _ hnet)
        dsimp only
        repeat' split
        all_goals first
          | exact h
          | exact netOK_entries_aupsert _ _ _ (stateOK_pushUndoStack _ h)
              (netOK_of_fields _ _ rfl rfl rfl rfl hOK)
  | deleteCompartment neti compi =>
    show stateOK (deleteCompartment neti compi st).2
    unfold deleteCompartment
    dsimp only
    cases hnet : alookup st.networkDict neti with
    | none => exact h
    | some net =>
      have hOK := h (neti, net) (alookup_mem _ _ _ hnet)
      dsimp only
      cases hcomp : alookup net.compartments compi with
      | none => exact h
      | some c =>
        dsimp only
        repeat' split
        all_goals first
          | exact stateOK_pushUndoStack _ h
          | exact netOK_entries_aupsert _ _ _ (stateOK_pushUndoStack _ h)
              (netOK_of_fields _ _
                (moveFold_fields (c.node_indices.sort (fun a b => a ≤ b)) net).1
                (moveFold_fields (c.node_indices.sort (fun a b => a ≤ b)) net).2.1
                (moveFold_fields (c.node_indices.sort (fun a b => a ≤ b)) net).2.2.1
                (moveFold_fields (c.node_indices.sort (fun a b => a ≤ b)) net).2.2.2
                hOK)
  | setCompartmentOfNode neti nodei compi =>
    show stateOK (setCompartmentOfNode neti nodei compi st).2
    unfold setCompartmentOfNode
    dsimp only
    cases hnet : alookup st.networkDict neti with
    | none => exact h
    | some net =>
      have hOK : netOK net := h (neti, net) (alookup_mem _ _ _ hnet)
      dsimp only
      cases hnode : alookup net.nodes nodei with
      | none => exact h
      | some node =>
        dsimp only
        by_cases hcompi : node.compi ≠ -1
        · rw [if_pos hcompi]
          cases hcomp : alookup net.compartments node.compi with
          | none =>
            dsimp only
            exact stateOK_pushUndoStack _ h
          | some c =>
            dsimp only
            by_cases hcm : nodei ∈ c.node_indices
            · rw [if_pos hcm]
              dsimp only
              by_cases htgt : compi ≠ -1
              · rw [if_pos htgt]
                cases hc2 : alookup (aupsert net.compartments node.compi
                    ({ c with node_indices := c.node_indices.erase nodei })) compi with
                | none =>
                  dsimp only
                  exact netOK_entries_aupsert _ _ _ (stateOK_pushUndoStack _ h)
                    (netOK_of_fields _ _ rfl rfl rfl rfl hOK)
                | some c2 =>
                  dsimp only
                  exact netOK_entries_aupsert _ _ _ (stateOK_pushUndoStack _ h)
                    (netOK_of_fields _ _ rfl rfl rfl rfl hOK)
              · rw [if_neg htgt]
                dsimp only
                exact netOK_entries_aupsert _ _ _ (stateOK_pushUndoStack _ h)
                  (netOK_of_fields _ _ rfl rfl rfl rfl hOK)
            · rw [if_neg hcm]
              dsimp only
              exact stateOK_pushUndoStack _ h
        · rw [if_neg hcompi]
          by_cases hbase : nodei ∈ net.baseNodes
          · rw [if_pos hbase]
            dsimp only
            by_cases htgt : compi ≠ -1
            · rw [if_pos htgt]
              cases hc2 : alookup net.compartments compi with
              | none =>
                dsimp only
                exact netOK_entries_aupsert _ _ _ (stateOK_pushUndoStack _ h)
                  (netOK_of_fields _ _ rfl rfl rfl rfl hOK)
              | some c2 =>
                dsimp only
                exact netOK_entries_aupsert _ _ _ (stateOK_pushUndoStack _ h)
                  (netOK_of_fields _ _ rfl rfl rfl rfl hOK)
            · rw [if_neg htgt]
              dsimp only
              exact netOK_entries_aupsert _ _ _ (stateOK_pushUndoStack _ h)
                (netOK_of_fields _ _ rfl rfl rfl rfl hOK)
          · rw [if_neg hbase]
            dsimp only
            exact stateOK_pushUndoStack _ h
  | setCompartmentID neti compi id =>
    show stateOK (setCompartmentID neti compi id st).2
    unfold setCompartmentID
    dsimp only
    cases hnet : alookup (pushUndoStack st).networkDict neti with
    | none => exact stateOK_pushUndoStack _ h
    | some net =>
      have hOK : netOK net := stateOK_pushUndoStack _ h (neti, net) (alookup_mem _ _ _ hnet)
      dsimp only
      cases hcomp : alookup net.compartments compi with
      | none => exact stateOK_pushUndoStack _ h
      | some c =>
        dsimp only
        exact netOK_entries_aupsert _ _ _ (stateOK_pushUndoStack _ h)
          (netOK_of_fields _ _ rfl rfl rfl rfl hOK)
  | newNetwork netID =>
    show stateOK (newNetwork netID st).2
    unfold newNetwork
    dsimp only
    repeat' split
    all_goals first
      | exact h
      | exact netOK_entries_aupsert _ _ _ (stateOK_pushUndoStack _ h) (netOK_empty netID)
  | deleteNetwork neti =>
    show stateOK (deleteNetwork neti st).2
    unfold deleteNetwork
    dsimp only
    repeat' split
    all_goals first
      | exact h
      | exact netOK_entries_aerase _ _ (stateOK_pushUndoStack _ h)
  | clearNetwork neti =>
    show stateOK (clearNetwork neti st).2
    unfold clearNetwork
    dsimp only
    cases hnet : alookup st.networkDict neti with
    | none => exact h
    | some net =>
      dsimp only
      exact netOK_entries_aupsert _ _ _ (stateOK_pushUndoStack _ h) (netOK_empty net.id)
  | clearNetworksOp =>
    show stateOK (clearNetworks st)
    unfold clearNetworks
    dsimp only
    intro p hp
    simp at hp

/-- C3: starting from any registry satisfying the reachable-state
invariant, after every sequence of mutating operations — in particular
any mix of `createReaction`, `deleteReaction` and `clearReactions` —
every network's `srcMap` and `destMap` still equal, pointwise at every
node index, exactly what a full scan of that network's `reactions` map
produces (`scanSrc`/`scanDest`). -/
theorem srcMap_destMap_equal_full_scan (ops : List Op) (st : GState)
    (h : stateOK st) :
    stateOK (runOps ops st) ∧
    ∀ p ∈ (runOps ops st).networkDict, ∀ n : ℤ,
      mapGetD p.2.srcMap n = scanSrc p.2.reactions n ∧
      mapGetD p.2.destMap n = scanDest p.2.reactions n := by
  have hall : stateOK (runOps ops st) := by
    induction ops generalizing st with
    | nil => exact h
    | cons op rest ih => exact ih (runOp op st) (stateOK_runOp op st h)
  exact ⟨hall, fun p hp n => (hall p hp).2 n⟩

/-- The operation sequence of the C3 witness: a network, two nodes, a
reaction from node 0 to node 1. -/
def c3ops : List Op :=
  [Op.newNetwork "n", Op.addNode 0 "A" 1 1 1 1 true, Op.addNode 0 "B" 2 2 1 1 true,
   Op.createReaction 0 "r" [0] [1]]

/-- C3 witness: the invariant evaluated on the network produced by
`c3ops` from the initial state, at node indices 0 and 1. -/
theorem srcMap_destMap_equal_full_scan_witness :
    ((alookup (runOps c3ops initSt).networkDict 0).map
      (fun net => decide (mapGetD net.srcMap 0 = scanSrc net.reactions 0 ∧
                          mapGetD net.destMap 1 = scanDest net.reactions 1))) =
      some true := by
  have h := (srcMap_destMap_equal_full_scan c3ops initSt
    (by intro p hp; simp [initSt] at hp)).2
  cases hl : alookup (runOps c3ops initSt).networkDict 0 with
  | none => exact absurd hl (by decide)
  | some net =>
    have hm := h (0, net) (alookup_mem _ _ _ hl)
    show some (decide _) = some true
    rw [decide_eq_true ⟨(hm 0).1, (hm 1).2⟩]

end Iodine
